import Mathlib

/-!
# The libc reference-test harnesses `try_strftime.c` and `try_strptime.c`

Both programs are straight-line `main` functions: check `argc`, set the process
locale twice, convert between command-line integers and `struct tm`, call one
routine of the host C library and print.  The embedding below keeps every
observable step: which `argv[i]` is read, which library routine is called with
which arguments, what reaches `stdout` and `stderr`, and the value returned
from `main`.

The host C library (`atoi`, `setlocale`, `strftime`, `strptime`) is not part of
the repository.  It enters as a parameter (`Host`), so that the general
theorems hold for every host; a concrete host (`SpecEngine.specHost`), written
after the engine description of the specification, is used wherever a
statement has to be evaluated on concrete input, and for the round-trip
property, which is a property of the engines.

Conventions: `int` is 32 bits wide and its arithmetic wraps; strings are lists
of characters without their terminating NUL; the value returned from `main` is
the exit status (`-1` is a non-zero status).

Contents: the C model and the two programs; the engines of the specification;
closed expressions for the pieces of a run; concrete inputs; then lemmas (run
equations, `strftime` and the array, decimal digits, the engines on their own
renderings) and the theorems for the claims C1 to C10.
-/

namespace Reftest

/-! ## C strings and `int` -/

/-- A C string, given by the characters in front of its terminating NUL. -/
abbrev CString := List Char

/-- The terminating character of a C string. -/
def NUL : Char := Char.ofNat 0

/-- The characters of a string constant of the source. -/
def lit (s : String) : CString := s.toList

/-- The C string that starts at the first byte of `mem`. -/
def cstr (mem : List Char) : CString := mem.takeWhile (fun c => c != NUL)

/-- The smallest value of the 32-bit type `int`. -/
def INT_MIN : Int := -2147483648

/-- The largest value of the 32-bit type `int`. -/
def INT_MAX : Int := 2147483647

/-- Membership in the range of the 32-bit type `int`. -/
def isInt (x : Int) : Prop := INT_MIN ≤ x ∧ x ≤ INT_MAX

instance (x : Int) : Decidable (isInt x) := by
  unfold isInt; exact inferInstance

/-- Reduction of a mathematical integer into the range of `int`, modulo 2^32. -/
def wrapInt (x : Int) : Int := (x + 2147483648) % 4294967296 - 2147483648

/-- The C expression `a - b` on `int` operands. -/
def int_sub (a b : Int) : Int := wrapInt (a - b)

/-- The C expression `a + b` on `int` operands. -/
def int_add (a b : Int) : Int := wrapInt (a + b)

/-- The members of `struct tm` that the two programs assign or print. -/
structure Tm where
  tm_sec : Int
  tm_min : Int
  tm_hour : Int
  tm_mday : Int
  tm_mon : Int
  tm_year : Int
  tm_wday : Int
  tm_yday : Int
  tm_isdst : Int
  deriving DecidableEq, Repr

/-! ## The host C library -/

/-- The two locale categories passed to `setlocale`. -/
inductive Category where
  | LC_TIME
  | LC_ALL
  deriving DecidableEq, Repr

/-- The routines of the host C library used by the programs, over a process
locale state of type `σ`.

* `atoi nptr` is the `int` that `atoi` returns.
* `setlocale c name st` gives whether the call returned a non-NULL pointer,
  and the locale state after the call.
* `render st format tm` is the complete text that `strftime` produces for
  `format` and `tm`, before any length limit is applied.
* `residue st format tm` is what `strftime` leaves in the array when the text
  does not fit (the contents are indeterminate then).
* `strptime st s format tm` is `none` when `strptime` returns NULL; otherwise
  the offset into `s` of the returned pointer together with the updated
  `struct tm`. -/
structure Host (σ : Type) where
  atoi : CString → Int
  setlocale : Category → CString → σ → Bool × σ
  render : σ → CString → Tm → CString
  residue : σ → CString → Tm → List Char
  strptime : σ → CString → CString → Tm → Option (Nat × Tm)

/-- Modelled from the spec: the host routine `strftime(s, maxsize, format, tm)`,
absent from the sources, with the all-or-nothing length limit of §4.3 (the
"return 0 on truncation" host convention), which is the ISO C contract: when
the text together with its terminating NUL takes no more than `maxsize`
bytes, they are stored and the length of the text is returned;
otherwise 0 is returned and at most `maxsize` bytes of indeterminate content
are stored.  The result is the return value and the bytes stored from `s[0]`
on. -/
def Host.strftime {σ : Type} (h : Host σ) (st : σ) (maxsize : Nat)
    (format : CString) (tm : Tm) : Nat × List Char :=
  let text := h.render st format tm
  if text.length + 1 ≤ maxsize then (text.length, text ++ [NUL])
  else (0, (h.residue st format tm).take maxsize)

/-! ## Process state and the observable steps -/

/-- A call of a library routine, with its arguments. -/
inductive Call where
  | setlocale (category : Category) (locale : CString)
  | atoi (nptr : CString)
  | strftime (size : Nat) (maxsize : Nat) (format : CString) (tm : Tm)
  | strptime (s : CString) (format : CString) (tm : Tm)
  deriving DecidableEq, Repr

/-- What a run has done so far.  `reads` lists the indices `i` of the
`argv[i]` read, `calls` the library calls, both in program order; `fault`
records an access outside an object (an `argv` index not below `argc`, a store
beyond the array handed to `strftime`, a string read that meets no NUL). -/
structure Proc (σ : Type) where
  locale : σ
  stdout : List Char
  stderr : List Char
  reads : List Nat
  calls : List Call
  fault : Bool

/-- The state at entry to `main`. -/
def Proc.start {σ : Type} (l0 : σ) : Proc σ :=
  { locale := l0, stdout := [], stderr := [], reads := [], calls := [], fault := false }

/-- A step of a program: from the process state to a value and the next state. -/
def Step (σ α : Type) : Type := Proc σ → α × Proc σ

/-- Continuation of a step with the value and the state it produced. -/
def Step.andThen {σ α β : Type} (r : α × Proc σ) (k : α → Proc σ → β × Proc σ) :
    β × Proc σ :=
  k r.1 r.2

instance {σ : Type} : Monad (Step σ) where
  pure a := fun p => (a, p)
  bind x f := fun p => Step.andThen (x p) f

/-- Running a step from a state. -/
def Step.run {σ α : Type} (x : Step σ α) (p : Proc σ) : α × Proc σ := x p

/-- The expression `argv[i]`. -/
def argvRead {σ : Type} (argv : List CString) (i : Nat) : Step σ CString := fun p =>
  match argv.get? i with
  | some a => (a, { p with reads := p.reads ++ [i] })
  | none => ([], { p with reads := p.reads ++ [i], fault := true })

/-- The call `setlocale(category, name)`; the value is the returned pointer,
as a flag. -/
def call_setlocale {σ : Type} (h : Host σ) (category : Category) (name : CString) :
    Step σ Bool := fun p =>
  ((h.setlocale category name p.locale).1,
   { p with locale := (h.setlocale category name p.locale).2,
            calls := p.calls ++ [Call.setlocale category name] })

/-- The call `atoi(nptr)`. -/
def call_atoi {σ : Type} (h : Host σ) (nptr : CString) : Step σ Int := fun p =>
  (h.atoi nptr, { p with calls := p.calls ++ [Call.atoi nptr] })

/-- The expression `atoi(argv[i])`. -/
def atoi_argv {σ : Type} (h : Host σ) (argv : List CString) (i : Nat) : Step σ Int := do
  let a ← argvRead argv i
  call_atoi h a

/-- The call `strftime(s, maxsize, format, &tm)` on an array `s` of `size`
bytes.  The value is the return value and the defined leading bytes of `s`
after the call. -/
def call_strftime {σ : Type} (h : Host σ) (size maxsize : Nat) (format : CString) (tm : Tm) :
    Step σ (Nat × List Char) := fun p =>
  (h.strftime p.locale maxsize format tm,
   { p with calls := p.calls ++ [Call.strftime size maxsize format tm],
            fault := p.fault ||
              decide (size < (h.strftime p.locale maxsize format tm).2.length) })

/-- The call `strptime(s, format, &tm)`.  The value is the returned pointer,
as the C string it points to (`none` for NULL), and `tm` after the call (left
as it was when the host reports failure). -/
def call_strptime {σ : Type} (h : Host σ) (s format : CString) (tm : Tm) :
    Step σ (Option CString × Tm) := fun p =>
  ((match h.strptime p.locale s format tm with
    | none => (none, tm)
    | some r => (some (s.drop r.1), r.2)),
   { p with calls := p.calls ++ [Call.strptime s format tm] })

/-- An argument of a `printf` call. -/
inductive Arg where
  | int (v : Int)
  | str (s : CString)

/-- The conversion `%d`. -/
def decimal (v : Int) : CString :=
  if v < 0 then '-' :: Nat.toDigits 10 v.natAbs else Nat.toDigits 10 v.natAbs

/-- The text produced by a `printf` format with the conversions `%d` and `%s`. -/
def vformat : CString → List Arg → CString
  | [], _ => []
  | c :: rest, args =>
    if c = '%' then
      match rest with
      | [] => []
      | k :: rest1 =>
        match args with
        | [] => []
        | a :: args1 =>
          (match a with
           | Arg.int v => if k = 'd' then decimal v else []
           | Arg.str s => if k = 's' then s else []) ++ vformat rest1 args1
    else c :: vformat rest args

/-- The call `fprintf(stderr, format)` without conversions. -/
def fprintf_stderr {σ : Type} (format : CString) : Step σ Unit := fun p =>
  ((), { p with stderr := p.stderr ++ vformat format [] })

/-- The call `printf(format, args...)`. -/
def printf {σ : Type} (format : CString) (args : List Arg) : Step σ Unit := fun p =>
  ((), { p with stdout := p.stdout ++ vformat format args })

/-- Reading the array `s`, of which `mem` are the defined leading bytes, as a
C string. -/
def readString {σ : Type} (mem : List Char) : Step σ CString := fun p =>
  (cstr mem, { p with fault := p.fault || !(mem.contains NUL) })

end Reftest

/-! ## `try_strftime.c` -/

namespace try_strftime

open Reftest

/-- The value of `sizeof(s)` for `char s[8192]`. -/
def sizeof_s : Nat := 8192

/-- The assignments to the members of `tm` (lines 18 to 26), from the nine
values returned by `atoi`. -/
def buildTm (sec min hour mday mon year wday yday isdst : Int) : Tm :=
  { tm_sec := sec
    tm_min := min
    tm_hour := hour
    tm_mday := mday
    tm_mon := int_sub mon 1
    tm_year := int_sub year 1900
    tm_wday := wday
    tm_yday := int_sub yday 1
    tm_isdst := isdst }

/-- The body of `main` in `try_strftime.c`. -/
def body {σ : Type} (h : Host σ) (argv : List CString) : Step σ Int :=
  let argc : Int := argv.length
  if argc ≤ 11 then do
    fprintf_stderr (lit "ERROR: too few arguments.\n")
    pure (-1)
  else do
    let a ← argvRead argv 11
    let _ ← call_setlocale h Category.LC_TIME a
    let a ← argvRead argv 11
    let _ ← call_setlocale h Category.LC_ALL a
    let sec ← atoi_argv h argv 7
    let min ← atoi_argv h argv 6
    let hour ← atoi_argv h argv 5
    let mday ← atoi_argv h argv 4
    let mon ← atoi_argv h argv 3
    let year ← atoi_argv h argv 2
    let wday ← atoi_argv h argv 8
    let yday ← atoi_argv h argv 9
    let isdst ← atoi_argv h argv 10
    let tm := buildTm sec min hour mday mon year wday yday isdst
    let format ← argvRead argv 1
    let r ← call_strftime h sizeof_s (sizeof_s - 1) format tm
    if r.1 = 0 then do
      fprintf_stderr (lit "ERROR: strftime returned 0.\n")
      pure (-1)
    else do
      let s ← readString r.2
      printf (lit "%s\n") [Arg.str s]
      pure 0

/-- The function `main` of `try_strftime.c`, run in a process whose locale
state at entry is `l0`: the returned value and the final process state. -/
def main {σ : Type} (h : Host σ) (argv : List CString) (l0 : σ) : Int × Proc σ :=
  (body h argv).run (Proc.start l0)

end try_strftime

/-! ## `try_strptime.c` -/

namespace try_strptime

open Reftest

/-- The assignments to the members of `tm` before the call (lines 20 to 28). -/
def initTm : Tm :=
  { tm_year := int_sub (-1) 1900
    tm_mon := int_sub (-1) 1
    tm_mday := -1
    tm_hour := -1
    tm_min := -1
    tm_sec := -1
    tm_wday := -1
    tm_yday := -1
    tm_isdst := -1 }

/-- The nine numbers handed to `printf` (lines 37 to 45), in output order. -/
def outputFields (tm : Tm) : List Int :=
  [ int_add tm.tm_year 1900,
    int_add tm.tm_mon 1,
    tm.tm_mday,
    tm.tm_hour,
    tm.tm_min,
    tm.tm_sec,
    tm.tm_wday,
    int_add tm.tm_yday 1,
    tm.tm_isdst ]

/-- The format of the output line (line 36). -/
def lineFormat : CString := lit "%d\t%d\t%d\t%d\t%d\t%d\t%d\t%d\t%d\t%s\n"

/-- The body of `main` in `try_strptime.c`. -/
def body {σ : Type} (h : Host σ) (argv : List CString) : Step σ Int :=
  let argc : Int := argv.length
  if argc < 4 then do
    fprintf_stderr (lit "ERROR: too few arguments.\n")
    pure (-1)
  else do
    let a ← argvRead argv 3
    let _ ← call_setlocale h Category.LC_TIME a
    let a ← argvRead argv 3
    let _ ← call_setlocale h Category.LC_ALL a
    let tm := initTm
    let s ← argvRead argv 1
    let format ← argvRead argv 2
    let r ← call_strptime h s format tm
    let remaining := r.1
    let tm := r.2
    if remaining.isNone then do
      fprintf_stderr (lit "ERROR: strptime failed to parse input.\n")
      pure (-1)
    else do
      printf lineFormat
        ((outputFields tm).map Arg.int ++
          [Arg.str (match remaining with
                    | some rem => rem
                    | none => [])])
      pure 0

/-- The function `main` of `try_strptime.c`, run in a process whose locale
state at entry is `l0`: the returned value and the final process state. -/
def main {σ : Type} (h : Host σ) (argv : List CString) (l0 : σ) : Int × Proc σ :=
  (body h argv).run (Proc.start l0)

end try_strptime

/-! ## A host after the engine description of the specification -/

namespace SpecEngine

open Reftest

/-- Modelled from the spec: the record of §3, a broken-down time point whose
fields carry the values exchanged with the harness (calendar year, month
1-12, day, hour, minute, second, weekday 0-6, year-day, DST flag). -/
structure CalendarRecord where
  year : Int
  month : Int
  day : Int
  hour : Int
  minute : Int
  second : Int
  weekday : Int
  yearday : Int
  isDst : Int
  deriving DecidableEq, Repr

/-- Modelled from the spec: the sentinel of an unset field (§3). -/
def unset : Int := -1

/-- Modelled from the spec: the locale table of §3, with the name sequences
and the AM/PM markers.  Its contents are data of the locale and stay a
parameter. -/
structure LocaleTable where
  months : List CString
  monthsAbbr : List CString
  weekdays : List CString
  weekdaysAbbr : List CString
  am : CString
  pm : CString
  deriving DecidableEq, Repr

/-- Modelled from the spec: the error kinds of the parse engine (§7). -/
inductive ParseError where
  | LiteralMismatch
  | OutOfRange
  | UnknownName
  deriving DecidableEq, Repr

/-- Modelled from the spec: the engine-defined placeholder that a directive
emits for an unset field (§4.3); the engine here uses a question mark. -/
def placeholder : CString := ['?']

/-- Decimal digits of `n`, padded with zeros on the left to `width`. -/
def zeroPad (width : Nat) (n : Nat) : CString :=
  let ds := Nat.toDigits 10 n
  List.replicate (width - ds.length) '0' ++ ds

/-- Modelled from the spec: a zero-padded numeric field of §4.3, the
placeholder when the field is unset. -/
def renderField (width : Nat) (v : Int) : CString :=
  if v = unset then placeholder
  else if v < 0 then '-' :: zeroPad width v.natAbs
  else zeroPad width v.natAbs

/-- Modelled from the spec: the bounds-checked name lookups `monthName` and
`weekdayName` of §4.2, by 0-based index. -/
def nameAt (names : List CString) (index : Int) : CString :=
  if 0 ≤ index then (names.get? index.toNat).getD placeholder else placeholder

/-- Modelled from the spec: `amPmMarker` of §4.2. -/
def amPmMarker (t : LocaleTable) (isPm : Bool) : CString :=
  if isPm then t.pm else t.am

/-- Modelled from the spec: the rendering of one directive (§4.3).  `%Y` is
the decimal year without padding, sign preserved; `%m %d %H %M %S` are two
digits; `%j` three digits; `%a %A %b %B` are name lookups; `%p` is the AM/PM
marker.  A directive that is not recognised is passed through literally, the
first of the two policies that §4.3 offers. -/
def formatDirective (t : LocaleTable) (r : CalendarRecord) (d : Char) : CString :=
  if d = '%' then ['%']
  else if d = 'Y' then decimal r.year
  else if d = 'm' then renderField 2 r.month
  else if d = 'd' then renderField 2 r.day
  else if d = 'H' then renderField 2 r.hour
  else if d = 'M' then renderField 2 r.minute
  else if d = 'S' then renderField 2 r.second
  else if d = 'j' then renderField 3 r.yearday
  else if d = 'a' then nameAt t.weekdaysAbbr r.weekday
  else if d = 'A' then nameAt t.weekdays r.weekday
  else if d = 'b' then nameAt t.monthsAbbr (r.month - 1)
  else if d = 'B' then nameAt t.months (r.month - 1)
  else if d = 'p' then
    (if r.hour = unset then placeholder else amPmMarker t (decide (12 ≤ r.hour)))
  else ['%', d]

/-- Modelled from the spec: the format engine of §4.3, a scan of the template
from left to right that copies literal characters and renders directives. -/
def format (t : LocaleTable) (r : CalendarRecord) : CString → CString
  | [] => []
  | c :: rest =>
    if c = '%' then
      match rest with
      | [] => ['%']
      | d :: rest1 => formatDirective t r d ++ format t r rest1
    else c :: format t r rest

/-- The number written by a run of decimal digits. -/
def digitsValue (ds : List Char) : Nat :=
  ds.foldl (fun acc c => 10 * acc + (c.toNat - 48)) 0

/-- Modelled from the spec: a numeric directive of §4.4 consumes the maximal
run of decimal digits, up to `width` of them, and converts it.  No digit at
the position is no match.  With `strict` set, a run shorter than `width` is
no match either: that is the reading of the corner case in §8, where a single
digit does not parse as a two-digit hour, against the "up to" of §4.4. -/
def parseNumber (strict : Bool) (width : Nat) (input : CString) : Option (Nat × CString) :=
  let run := (input.takeWhile Char.isDigit).take width
  if run.isEmpty || (strict && decide (run.length < width)) then none
  else some (digitsValue run, input.drop run.length)

/-- Modelled from the spec: a numeric directive with the range validation of
§4.4 against the bounds `lo` to `hi` of §3. -/
def parseField (strict : Bool) (width lo hi : Nat) (input : CString) :
    Except ParseError (Nat × CString) :=
  match parseNumber strict width input with
  | none => Except.error ParseError.LiteralMismatch
  | some (v, rest) =>
    if lo ≤ v ∧ v ≤ hi then Except.ok (v, rest) else Except.error ParseError.OutOfRange

/-- Comparison of a name with the start of the input, ignoring case. -/
def nameMatches (name input : CString) : Bool :=
  !name.isEmpty && (name.map Char.toLower).isPrefixOf (input.map Char.toLower)

/-- The longest of the names that matches at the start of the input, as its
0-based index and length; among equally long matches the first one in `names`. -/
def longestMatch (names : List (Nat × CString)) (input : CString) : Option (Nat × Nat) :=
  names.foldl
    (fun best e =>
      if nameMatches e.2 input then
        match best with
        | none => some (e.1, e.2.length)
        | some b => if b.2 < e.2.length then some (e.1, e.2.length) else some b
      else best)
    none

/-- Modelled from the spec: a name directive of §4.4, a case-insensitive
longest-match lookup against the abbreviated names, then the full names. -/
def parseName (abbr full : List CString) (input : CString) :
    Except ParseError (Nat × CString) :=
  match longestMatch (abbr.enum ++ full.enum) input with
  | none => Except.error ParseError.UnknownName
  | some (i, n) => Except.ok (i, input.drop n)

/-- Modelled from the spec: one literal template character must equal the
next input character (§4.4). -/
def parseLiteral (c : Char) (input : CString) : Except ParseError CString :=
  match input with
  | [] => Except.error ParseError.LiteralMismatch
  | i :: rest => if i = c then Except.ok rest else Except.error ParseError.LiteralMismatch

/-- Modelled from the spec: the effect of one directive on the input and the
record (§4.4).  `yWidth` is the natural maximum width of `%Y`, which the spec
does not fix; the other numeric widths are those of the rendering.  `%p`
matches a marker and names no field of the record.  A directive that is not
recognised stands for its two literal characters. -/
def parseDirective (strict : Bool) (yWidth : Nat) (t : LocaleTable) (d : Char)
    (input : CString) (r : CalendarRecord) : Except ParseError (CalendarRecord × CString) :=
  if d = '%' then (parseLiteral '%' input).map (fun rest => (r, rest))
  else if d = 'Y' then
    match parseNumber strict yWidth input with
    | none => Except.error ParseError.LiteralMismatch
    | some (v, rest) => Except.ok ({ r with year := v }, rest)
  else if d = 'm' then
    (parseField strict 2 1 12 input).map (fun x => ({ r with month := x.1 }, x.2))
  else if d = 'd' then
    (parseField strict 2 1 31 input).map (fun x => ({ r with day := x.1 }, x.2))
  else if d = 'H' then
    (parseField strict 2 0 23 input).map (fun x => ({ r with hour := x.1 }, x.2))
  else if d = 'M' then
    (parseField strict 2 0 59 input).map (fun x => ({ r with minute := x.1 }, x.2))
  else if d = 'S' then
    (parseField strict 2 0 61 input).map (fun x => ({ r with second := x.1 }, x.2))
  else if d = 'j' then
    (parseField strict 3 0 365 input).map (fun x => ({ r with yearday := x.1 }, x.2))
  else if d = 'a' ∨ d = 'A' then
    (parseName t.weekdaysAbbr t.weekdays input).map
      (fun x => ({ r with weekday := x.1 }, x.2))
  else if d = 'b' ∨ d = 'B' then
    (parseName t.monthsAbbr t.months input).map
      (fun x => ({ r with month := (x.1 : Int) + 1 }, x.2))
  else if d = 'p' then
    (parseName [t.am, t.pm] [] input).map (fun x => (r, x.2))
  else
    match parseLiteral '%' input with
    | Except.error e => Except.error e
    | Except.ok rest => (parseLiteral d rest).map (fun rest1 => (r, rest1))

/-- Modelled from the spec: the parse engine of §4.4, one linear scan of
template and input in lockstep without backtracking.  It returns the record
with the fields touched by a directive updated, and the unconsumed input. -/
def parse (strict : Bool) (yWidth : Nat) (t : LocaleTable) :
    CString → CString → CalendarRecord → Except ParseError (CalendarRecord × CString)
  | [], input, r => Except.ok (r, input)
  | c :: rest, input, r =>
    if c = '%' then
      match rest with
      | [] => (parseLiteral '%' input).map (fun input1 => (r, input1))
      | d :: rest1 =>
        match parseDirective strict yWidth t d input r with
        | Except.error e => Except.error e
        | Except.ok (r1, input1) => parse strict yWidth t rest1 input1 r1
    else
      match parseLiteral c input with
      | Except.error e => Except.error e
      | Except.ok input1 => parse strict yWidth t rest input1 r

/-- The record that a `struct tm` stands for: years count from 1900, months
and year-days from 0, as in the conversions of the two programs. -/
def recordOfTm (tm : Tm) : CalendarRecord :=
  { year := tm.tm_year + 1900
    month := tm.tm_mon + 1
    day := tm.tm_mday
    hour := tm.tm_hour
    minute := tm.tm_min
    second := tm.tm_sec
    weekday := tm.tm_wday
    yearday := tm.tm_yday + 1
    isDst := tm.tm_isdst }

/-- The `struct tm` of a record, inverse to `recordOfTm`. -/
def tmOfRecord (r : CalendarRecord) : Tm :=
  { tm_year := r.year - 1900
    tm_mon := r.month - 1
    tm_mday := r.day
    tm_hour := r.hour
    tm_min := r.minute
    tm_sec := r.second
    tm_wday := r.weekday
    tm_yday := r.yearday - 1
    tm_isdst := r.isDst }

/-- The white-space characters that `isspace` accepts in the C locale: space,
`\t`, `\n`, `\v`, `\f` and `\r`. -/
def isspace (c : Char) : Bool :=
  decide (c = ' ') || (decide (9 ≤ c.toNat) && decide (c.toNat ≤ 13))

/-- The least value of a `long` of 64 bits. -/
def LONG_MIN : Int := -9223372036854775808

/-- The greatest value of a `long` of 64 bits. -/
def LONG_MAX : Int := 9223372036854775807

/-- The routine `strtol` in base 10 with a 64-bit `long`: white space, an
optional sign, the run of decimal digits; a value outside `long` is replaced
by the nearest bound. -/
def strtol (nptr : CString) : Int :=
  let v : Int :=
    match nptr.dropWhile isspace with
    | '-' :: ds => -(digitsValue (ds.takeWhile Char.isDigit) : Int)
    | '+' :: ds => digitsValue (ds.takeWhile Char.isDigit)
    | ds => digitsValue (ds.takeWhile Char.isDigit)
  if v < LONG_MIN then LONG_MIN else if LONG_MAX < v then LONG_MAX else v

/-- The routine `atoi` of the host used for evaluation, which the spec does
not describe: the result of `strtol` in base 10 converted to `int`, as the
GNU C library defines it.  The C contract leaves a value outside `int`
undefined; no theorem below depends on it. -/
def atoi (nptr : CString) : Int := wrapInt (strtol nptr)

/-- Modelled from the spec: `load` of §4.2, which yields the table of a known
locale identifier and the default table for every other identifier. -/
def load (known : List (CString × LocaleTable)) (dflt : LocaleTable) (localeId : CString) :
    Bool × LocaleTable :=
  match known.lookup localeId with
  | some t => (true, t)
  | none => (false, dflt)

/-- Modelled from the spec: a host library whose `strftime` and `strptime` are
the format and parse engines of §4.3 and §4.4, absent from the sources.  The
process locale state is the loaded table; `setlocale` is `load`, so that an
unknown identifier is reported as a failure and leaves a process that runs
under the default table where it is.  The routine `atoi` and the two points
that the spec leaves open for the numeric directives, `strict` and the width
`yWidth` of `%Y`, are parameters. -/
def specHost (atoi : CString → Int) (strict : Bool) (yWidth : Nat)
    (known : List (CString × LocaleTable)) (dflt : LocaleTable) : Host LocaleTable :=
  { atoi := atoi
    setlocale := fun _ name _ => load known dflt name
    render := fun t template tm => format t (recordOfTm tm) template
    residue := fun _ _ _ => []
    strptime := fun t s template tm =>
      match parse strict yWidth t template s (recordOfTm tm) with
      | Except.error _ => none
      | Except.ok (r, rest) => some (s.length - rest.length, tmOfRecord r) }

/-- Sample locale data: English names, as in the `en_US` scenario of §8. -/
def english : LocaleTable :=
  { months := ["January", "February", "March", "April", "May", "June", "July", "August",
      "September", "October", "November", "December"].map lit
    monthsAbbr := ["Jan", "Feb", "Mar", "Apr", "May", "Jun", "Jul", "Aug", "Sep", "Oct",
      "Nov", "Dec"].map lit
    weekdays := ["Sunday", "Monday", "Tuesday", "Wednesday", "Thursday", "Friday",
      "Saturday"].map lit
    weekdaysAbbr := ["Sun", "Mon", "Tue", "Wed", "Thu", "Fri", "Sat"].map lit
    am := lit "AM"
    pm := lit "PM" }

/-- The host used for evaluation: `atoi` as above, numeric runs of up to the width, four-digit
`%Y`, the locale `en_US` known, English names as the default table. -/
def host : Host LocaleTable := specHost atoi false 4 [(lit "en_US", english)] english

end SpecEngine

/-! ## What a run computes

Closed expressions for the pieces of a run, used to state what the two `main`
functions return and leave behind. -/

namespace Reftest

/-- The locale state after `setlocale(LC_TIME, name)` and `setlocale(LC_ALL, name)`. -/
def localeAfter {σ : Type} (h : Host σ) (name : CString) (l0 : σ) : σ :=
  (h.setlocale Category.LC_ALL name (h.setlocale Category.LC_TIME name l0).2).2

/-- The first diagnostic of both programs. -/
def tooFew : CString := lit "ERROR: too few arguments.\n"

end Reftest

namespace try_strftime

open Reftest

/-- The `struct tm` built from the arguments 2 to 10. -/
def tmOfArgv {σ : Type} (h : Host σ) (argv : List CString) : Tm :=
  buildTm (h.atoi (argv.getD 7 [])) (h.atoi (argv.getD 6 [])) (h.atoi (argv.getD 5 []))
    (h.atoi (argv.getD 4 [])) (h.atoi (argv.getD 3 [])) (h.atoi (argv.getD 2 []))
    (h.atoi (argv.getD 8 [])) (h.atoi (argv.getD 9 [])) (h.atoi (argv.getD 10 []))

/-- The text that the host renders for the template `argv[1]`, the fields
`argv[2]` to `argv[10]` and the locale `argv[11]`. -/
def rendering {σ : Type} (h : Host σ) (argv : List CString) (l0 : σ) : CString :=
  h.render (localeAfter h (argv.getD 11 []) l0) (argv.getD 1 []) (tmOfArgv h argv)

/-- The result of the `strftime` call of the program. -/
def strftimeResult {σ : Type} (h : Host σ) (argv : List CString) (l0 : σ) :
    Nat × List Char :=
  h.strftime (localeAfter h (argv.getD 11 []) l0) (sizeof_s - 1) (argv.getD 1 [])
    (tmOfArgv h argv)

/-- The `argv` indices read by a run that passes the argument check. -/
def readsOfRun : List Nat := [11, 11, 7, 6, 5, 4, 3, 2, 8, 9, 10, 1]

/-- The library calls of a run that passes the argument check. -/
def callsOfRun {σ : Type} (h : Host σ) (argv : List CString) : List Call :=
  [ Call.setlocale Category.LC_TIME (argv.getD 11 []),
    Call.setlocale Category.LC_ALL (argv.getD 11 []),
    Call.atoi (argv.getD 7 []), Call.atoi (argv.getD 6 []), Call.atoi (argv.getD 5 []),
    Call.atoi (argv.getD 4 []), Call.atoi (argv.getD 3 []), Call.atoi (argv.getD 2 []),
    Call.atoi (argv.getD 8 []), Call.atoi (argv.getD 9 []), Call.atoi (argv.getD 10 []),
    Call.strftime sizeof_s (sizeof_s - 1) (argv.getD 1 []) (tmOfArgv h argv) ]

/-- The second diagnostic of `try_strftime.c`. -/
def returnedZero : CString := lit "ERROR: strftime returned 0.\n"

end try_strftime

namespace try_strptime

open Reftest

/-- The result of the `strptime` call of the program: `none` for NULL, else
the offset of the returned pointer into `argv[1]` and the `struct tm`. -/
def parseResult {σ : Type} (h : Host σ) (argv : List CString) (l0 : σ) : Option (Nat × Tm) :=
  h.strptime (localeAfter h (argv.getD 3 []) l0) (argv.getD 1 []) (argv.getD 2 []) initTm

/-- The `argv` indices read by a run that passes the argument check. -/
def readsOfRun : List Nat := [3, 3, 1, 2]

/-- The library calls of a run that passes the argument check. -/
def callsOfRun (argv : List CString) : List Call :=
  [ Call.setlocale Category.LC_TIME (argv.getD 3 []),
    Call.setlocale Category.LC_ALL (argv.getD 3 []),
    Call.strptime (argv.getD 1 []) (argv.getD 2 []) initTm ]

/-- The second diagnostic of `try_strptime.c`. -/
def parseFailed : CString := lit "ERROR: strptime failed to parse input.\n"

/-- The output line without its newline: the numbers, each followed by a tab,
and the remainder. -/
def outputLine : List Int → CString → CString
  | [], remainder => remainder
  | v :: vs, remainder => decimal v ++ '\t' :: outputLine vs remainder

end try_strptime

namespace try_strptime

open Reftest

/-- The output line, without its newline, of a run whose `strptime` call
succeeds: the nine fields of the returned `struct tm` and the remainder of
`argv[1]`. -/
def resultLine {σ : Type} (h : Host σ) (argv : List CString) (l0 : σ) : CString :=
  match parseResult h argv l0 with
  | some r => outputLine (outputFields r.2) ((argv.getD 1 []).drop r.1)
  | none => []

end try_strptime

namespace Reftest

/-- The successful outcome of a run: status 0, nothing on `stderr`, and on
`stdout` exactly `result` followed by one newline. -/
def Succeeds {σ : Type} (r : Int × Proc σ) (result : CString) : Prop :=
  r.1 = 0 ∧ r.2.stderr = [] ∧ r.2.stdout = result ++ ['\n']

instance {σ : Type} (r : Int × Proc σ) (result : CString) : Decidable (Succeeds r result) := by
  unfold Succeeds; exact inferInstance

/-- The failed outcome of a run: a non-zero status, nothing on `stdout`, and
on `stderr` exactly one line: a non-empty text without newline, then one
newline. -/
def Fails {σ : Type} (r : Int × Proc σ) : Prop :=
  r.1 ≠ 0 ∧ r.2.stdout = [] ∧
    r.2.stderr.dropLast ≠ [] ∧ '\n' ∉ r.2.stderr.dropLast ∧ r.2.stderr.getLast? = some '\n'

instance {σ : Type} (r : Int × Proc σ) : Decidable (Fails r) := by
  unfold Fails; exact inferInstance

/-- The host `h` with the pointers returned by `setlocale` replaced by `f`,
the effect of the calls on the locale state kept. -/
def withSetlocaleResult {σ : Type} (h : Host σ) (f : Category → CString → σ → Bool) :
    Host σ :=
  { h with setlocale := fun c name st => (f c name st, (h.setlocale c name st).2) }

end Reftest

/-! ## Renderings that the parse engine re-reads

The round-trip property of §8 for the engines above.  Parsing is greedy and
never backtracks (§4.4), so a rendered directive is read back exactly when the
text that follows it does not extend the match: a year of fewer digits than
the width of `%Y` must not be followed by a digit, and a rendered name must be
the longest name of the locale table that matches where it begins.  The
predicate `rereads` states this for every directive of a template, together
with the range of §3 for the field that a directive names. -/

namespace SpecEngine

open Reftest

/-- The directives covered by §4.3 and §4.4: `%%`, the numeric directives
`%Y %m %d %H %M %S %j` and the name directives `%a %A %b %B %p`. -/
def coveredDirective (d : Char) : Bool :=
  decide (d = '%') || decide (d = 'Y') || decide (d = 'm') || decide (d = 'd') ||
    decide (d = 'H') || decide (d = 'M') || decide (d = 'S') || decide (d = 'j') ||
    decide (d = 'a') || decide (d = 'A') || decide (d = 'b') || decide (d = 'B') ||
    decide (d = 'p')

/-- Templates made of literal characters and the directives of
`coveredDirective`. -/
def coveredTemplate : CString → Bool
  | [] => true
  | c :: rest =>
    if c = '%' then
      match rest with
      | [] => false
      | d :: rest1 => coveredDirective d && coveredTemplate rest1
    else coveredTemplate rest

/-- The field that a directive names, copied from `src` into `dst`: the
weekday for `%a %A`, the month for `%m %b %B`, no field for `%%` and `%p`. -/
def assign (d : Char) (src dst : CalendarRecord) : CalendarRecord :=
  if d = 'Y' then { dst with year := src.year }
  else if d = 'm' then { dst with month := src.month }
  else if d = 'd' then { dst with day := src.day }
  else if d = 'H' then { dst with hour := src.hour }
  else if d = 'M' then { dst with minute := src.minute }
  else if d = 'S' then { dst with second := src.second }
  else if d = 'j' then { dst with yearday := src.yearday }
  else if d = 'a' then { dst with weekday := src.weekday }
  else if d = 'A' then { dst with weekday := src.weekday }
  else if d = 'b' then { dst with month := src.month }
  else if d = 'B' then { dst with month := src.month }
  else dst

/-- The fields that a template names, copied from `src` into `dst`. -/
def update : CString → CalendarRecord → CalendarRecord → CalendarRecord
  | [], _, dst => dst
  | c :: rest, src, dst =>
    if c = '%' then
      match rest with
      | [] => dst
      | d :: rest1 => update rest1 src (assign d src dst)
    else update rest src dst

/-- Whether the text starts with a decimal digit. -/
def startsWithDigit : CString → Bool
  | [] => false
  | c :: _ => c.isDigit

/-- The condition under which `%Y` reads a rendered year back: the year is
not negative, and either its decimal digits fill the width of `%Y`, or they
are fewer, short runs are accepted and no digit follows. -/
def yearRereads (strict : Bool) (yWidth : Nat) (year : Int) (following : CString) : Bool :=
  decide (0 ≤ year) &&
    (decide ((Nat.toDigits 10 year.toNat).length = yWidth) ||
      (!strict && decide ((Nat.toDigits 10 year.toNat).length < yWidth) &&
        !startsWithDigit following))

/-- The bounds `lo` to `hi` of a field in §3. -/
def within (lo hi v : Int) : Bool := decide (lo ≤ v) && decide (v ≤ hi)

/-- One step of the search of `longestMatch`. -/
def betterMatch (input : CString) (best : Option (Nat × Nat)) (e : Nat × CString) :
    Option (Nat × Nat) :=
  if nameMatches e.2 input then
    match best with
    | none => some (e.1, e.2.length)
    | some b => if b.2 < e.2.length then some (e.1, e.2.length) else some b
  else best

/-- The condition under which a name directive reads the rendered `name`
back in front of `following`: no candidate that matches at the start of the
text is longer than the name, and the first matching candidate of its length
has an index that `sameIndex` accepts. -/
def nameRereads (candidates : List (Nat × CString)) (sameIndex : Nat → Bool)
    (name following : CString) : Bool :=
  candidates.all (fun e =>
      !nameMatches e.2 (name ++ following) || decide (e.2.length ≤ name.length)) &&
    match candidates.find? (fun e =>
      nameMatches e.2 (name ++ following) && decide (e.2.length = name.length)) with
    | none => false
    | some e => sameIndex e.1

/-- The condition `nameRereads` for the name that the list `rendered` holds at
`index`, against the abbreviated and the full names with their indices. -/
def lookupRereads (rendered abbr full : List CString) (index : Int)
    (following : CString) : Bool :=
  decide (0 ≤ index) &&
    match rendered.get? index.toNat with
    | none => false
    | some name =>
      nameRereads (abbr.enum ++ full.enum) (fun i => decide (i = index.toNat)) name following

/-- The condition under which the parse engine reads back what the format
engine renders for the directive `%d` of the record `r`, in front of the text
`following`. -/
def directiveRereads (strict : Bool) (yWidth : Nat) (t : LocaleTable) (r : CalendarRecord)
    (d : Char) (following : CString) : Bool :=
  if d = 'Y' then yearRereads strict yWidth r.year following
  else if d = 'm' then within 1 12 r.month
  else if d = 'd' then within 1 31 r.day
  else if d = 'H' then within 0 23 r.hour
  else if d = 'M' then within 0 59 r.minute
  else if d = 'S' then within 0 61 r.second
  else if d = 'j' then within 0 365 r.yearday
  else if d = 'a' then
    lookupRereads t.weekdaysAbbr t.weekdaysAbbr t.weekdays r.weekday following
  else if d = 'A' then
    lookupRereads t.weekdays t.weekdaysAbbr t.weekdays r.weekday following
  else if d = 'b' then
    lookupRereads t.monthsAbbr t.monthsAbbr t.months (r.month - 1) following
  else if d = 'B' then
    lookupRereads t.months t.monthsAbbr t.months (r.month - 1) following
  else if d = 'p' then
    decide (r.hour ≠ unset) &&
      nameRereads ([t.am, t.pm].enum ++ ([] : List CString).enum) (fun _ => true)
        (amPmMarker t (decide (12 ≤ r.hour))) following
  else true

/-- The condition `directiveRereads` at every directive of the template, where
the text that follows a directive is the rendering of the rest of the
template and then `tail`. -/
def rereads (strict : Bool) (yWidth : Nat) (t : LocaleTable) (r : CalendarRecord) :
    CString → CString → Bool
  | [], _ => true
  | c :: rest, tail =>
    if c = '%' then
      match rest with
      | [] => true
      | d :: rest1 =>
        directiveRereads strict yWidth t r d (format t r rest1 ++ tail) &&
          rereads strict yWidth t r rest1 tail
    else rereads strict yWidth t r rest tail

/-- Whether the directive `%d` occurs in the template. -/
def names (d : Char) : CString → Bool
  | [] => false
  | c :: rest =>
    if c = '%' then
      match rest with
      | [] => false
      | e :: rest1 => decide (e = d) || names d rest1
    else names d rest

/-- The record of the nine values that the routine `atoi` returns for the
arguments of `try_strftime`. -/
def supplied (atoi : CString → Int)
    (year month day hour minute second weekday yearday isDst : CString) : CalendarRecord :=
  { year := atoi year
    month := atoi month
    day := atoi day
    hour := atoi hour
    minute := atoi minute
    second := atoi second
    weekday := atoi weekday
    yearday := atoi yearday
    isDst := atoi isDst }

/-- The nine numbers that `try_strptime` prints after a round trip of the
record `r` under a template: the value of `r` for every field that the
template names, and for every other field the number printed for an untouched
member. -/
def roundTripFields (template : CString) (r : CalendarRecord) : List Int :=
  [ if names 'Y' template then r.year else -1,
    if names 'm' template || (names 'b' template || names 'B' template) then r.month else -1,
    if names 'd' template then r.day else -1,
    if names 'H' template then r.hour else -1,
    if names 'M' template then r.minute else -1,
    if names 'S' template then r.second else -1,
    if names 'a' template || names 'A' template then r.weekday else -1,
    if names 'j' template then r.yearday else 0,
    -1 ]

end SpecEngine
/-! ## Concrete inputs

Argument vectors on which statements are evaluated, all for the host
`SpecEngine.host` started in the table `SpecEngine.english`. -/

namespace Inputs

open Reftest

/-- An `argv` from the program name and the arguments. -/
def argvOf (args : List String) : List CString := args.map lit

/-- The `argv` of a run of `try_strftime`: program name, template, the nine
fields, locale. -/
def formatArgv (prog template year month day hour minute second weekday yearday isDst
    locale : CString) : List CString :=
  [prog, template, year, month, day, hour, minute, second, weekday, yearday, isDst, locale]

/-- The `argv` of a run of `try_strptime`: program name, input text, template,
locale. -/
def parseArgv (prog text template locale : CString) : List CString :=
  [prog, text, template, locale]

/-- The run `try_strptime "" "" C`: empty input and empty template, so that no
directive touches any member of `tm`. -/
def parseNothing : List CString := argvOf ["try_strptime", "", "", "C"]

/-- The run `try_strftime` with the template `%Y-%m-%d` on 2024-03-07, a Thursday,
day 67 of the year. -/
def formatDate : List CString :=
  argvOf ["try_strftime", "%Y-%m-%d", "2024", "3", "7", "13", "5", "9", "4", "67", "0", "en_US"]

/-- The run `try_strptime` on the text that `formatDate` prints, same template and
locale. -/
def parseDate : List CString := argvOf ["try_strptime", "2024-03-07", "%Y-%m-%d", "en_US"]

/-- The run `try_strftime` with the empty template. -/
def formatEmpty : List CString :=
  argvOf ["try_strftime", "", "2024", "3", "7", "13", "5", "9", "4", "67", "0", "en_US"]

/-- The run `try_strftime` with a template that holds a newline character. -/
def formatTwoLines : List CString :=
  argvOf ["try_strftime", "a\nb", "2024", "3", "7", "13", "5", "9", "4", "67", "0", "en_US"]

/-- The run `try_strftime` with the template `%Y1` in the year 202. -/
def formatShortYear : List CString :=
  argvOf ["try_strftime", "%Y1", "202", "3", "7", "13", "5", "9", "4", "67", "0", "en_US"]

/-- The run `try_strptime` on the text that `formatShortYear` prints, same template
and locale. -/
def parseShortYear : List CString := argvOf ["try_strptime", "2021", "%Y1", "en_US"]

/-- The run `try_strftime` with the template `%arsday` on a Thursday. -/
def formatWeekday : List CString :=
  argvOf ["try_strftime", "%arsday", "2024", "3", "7", "13", "5", "9", "4", "67", "0", "en_US"]

/-- The run `try_strptime` on the text that `formatWeekday` prints, same template
and locale. -/
def parseWeekday : List CString := argvOf ["try_strptime", "Thursday", "%arsday", "en_US"]

/-- The run `try_strptime` on the text `2024`, which `try_strftime` prints for the
template `%Y` in the year 2024. -/
def parseYear : List CString := argvOf ["try_strptime", "2024", "%Y", "en_US"]

/-- The locales known to the hosts of the evaluations. -/
def known : List (CString × SpecEngine.LocaleTable) := [(lit "en_US", SpecEngine.english)]

/-- The run `try_strptime` on the text of `formatShortYear` with its newline. -/
def parseShortYearLine : List CString := argvOf ["try_strptime", "2021\n", "%Y1", "en_US"]

/-- The run `try_strftime` with a template of `n` letters `a`. -/
def formatLetters (n : Nat) : List CString :=
  formatArgv (lit "try_strftime") (List.replicate n 'a') (lit "2024") (lit "3") (lit "7")
    (lit "13") (lit "5") (lit "9") (lit "4") (lit "67") (lit "0") (lit "en_US")

/-- The run `try_strftime` with an unknown locale identifier. -/
def formatUnknownLocale : List CString :=
  argvOf ["try_strftime", "%Y-%m-%d", "2024", "3", "7", "13", "5", "9", "4", "67", "0", "zz_ZZ"]

/-- The run `try_strptime` with an unknown locale identifier. -/
def parseUnknownLocale : List CString :=
  argvOf ["try_strptime", "2024-03-07", "%Y-%m-%d", "zz_ZZ"]

/-- The run `try_strftime` with ten arguments, one short. -/
def formatTooFew : List CString :=
  argvOf ["try_strftime", "%Y-%m-%d", "2024", "3", "7", "13", "5", "9", "4", "67", "0"]

/-- The run `try_strptime` with two arguments, one short. -/
def parseTooFew : List CString := argvOf ["try_strptime", "2024-03-07", "%Y-%m-%d"]

/-- The run `try_strftime` with the template `%Y` in the year -5. -/
def formatNegativeYear : List CString :=
  argvOf ["try_strftime", "%Y", "-5", "3", "7", "13", "5", "9", "4", "67", "0", "en_US"]

/-- The run `try_strptime` on the text that `formatNegativeYear` prints, same
template and locale. -/
def parseNegativeYear : List CString := argvOf ["try_strptime", "-5", "%Y", "en_US"]

/-- The run `try_strftime` with the template `%Y` in the year 12345. -/
def formatLongYear : List CString :=
  argvOf ["try_strftime", "%Y", "12345", "3", "7", "13", "5", "9", "4", "67", "0", "en_US"]

/-- The run `try_strptime` on the text that `formatLongYear` prints, same template
and locale. -/
def parseLongYear : List CString := argvOf ["try_strptime", "12345", "%Y", "en_US"]

/-- The run `try_strftime` with the template `%m` and the month 13. -/
def formatMonth13 : List CString :=
  argvOf ["try_strftime", "%m", "2024", "13", "7", "13", "5", "9", "4", "67", "0", "en_US"]

/-- The run `try_strptime` on the text that `formatMonth13` prints, same template
and locale. -/
def parseMonth13 : List CString := argvOf ["try_strptime", "13", "%m", "en_US"]

/-- Sample locale data: the English names with weekday abbreviations of one
letter, two of which occur twice, and without AM/PM markers. -/
def narrow : SpecEngine.LocaleTable :=
  { SpecEngine.english with
    weekdaysAbbr := ["S", "M", "T", "W", "T", "F", "S"].map lit
    am := []
    pm := [] }

/-- The host of the evaluations under the table `narrow`, known as `xx_XX`. -/
def narrowHost : Host SpecEngine.LocaleTable :=
  SpecEngine.specHost SpecEngine.atoi false 4 [(lit "xx_XX", narrow)] SpecEngine.english

/-- The run `try_strftime` with the template `%H%p` at 13 hours in the locale
`xx_XX`. -/
def formatMarker : List CString :=
  argvOf ["try_strftime", "%H%p", "2024", "3", "7", "13", "5", "9", "4", "67", "0", "xx_XX"]

/-- The run `try_strptime` on the text that `formatMarker` prints, same template
and locale. -/
def parseMarker : List CString := argvOf ["try_strptime", "13", "%H%p", "xx_XX"]

/-- The run `try_strftime` with the template `%a` on weekday 6 in the locale
`xx_XX`. -/
def formatNarrow : List CString :=
  argvOf ["try_strftime", "%a", "2024", "3", "9", "13", "5", "9", "6", "69", "0", "xx_XX"]

/-- The run `try_strptime` on the text that `formatNarrow` prints, same template
and locale. -/
def parseNarrow : List CString := argvOf ["try_strptime", "S", "%a", "xx_XX"]

/-- The run `try_strftime` with the template `%Y-%m-%d` in the year 202. -/
def formatShortDate : List CString :=
  argvOf ["try_strftime", "%Y-%m-%d", "202", "3", "7", "13", "5", "9", "4", "67", "0", "en_US"]

/-- The run `try_strptime` on the text that `formatShortDate` prints, same
template and locale. -/
def parseShortDate : List CString := argvOf ["try_strptime", "202-03-07", "%Y-%m-%d", "en_US"]

/-- The run `try_strftime` with the template `%A, %B %d` of §8 on 2024-03-07. -/
def formatNames : List CString :=
  argvOf ["try_strftime", "%A, %B %d", "2024", "3", "7", "13", "5", "9", "4", "67", "0", "en_US"]

/-- The run `try_strptime` on the text that `formatNames` prints, same template and
locale. -/
def parseNames : List CString :=
  argvOf ["try_strptime", "Thursday, March 07", "%A, %B %d", "en_US"]

/-- The host of the evaluations with the other reading of short digit runs: a
run shorter than the width of its directive is no match. -/
def strictHost : Host SpecEngine.LocaleTable :=
  SpecEngine.specHost SpecEngine.atoi true 4 known SpecEngine.english

/-- The run `try_strftime` with the template `%Y` in the year 202. -/
def formatYear202 : List CString :=
  argvOf ["try_strftime", "%Y", "202", "3", "7", "13", "5", "9", "4", "67", "0", "en_US"]

/-- The run `try_strptime` on the text that `formatYear202` prints, same template
and locale. -/
def parseYear202 : List CString := argvOf ["try_strptime", "202", "%Y", "en_US"]

/-- The run `try_strftime` with the template `%a %b %j %H%p` on 2024-03-07 at 13
hours. -/
def formatTime : List CString :=
  argvOf ["try_strftime", "%a %b %j %H%p", "2024", "3", "7", "13", "5", "9", "4", "67", "0",
    "en_US"]

/-- The run `try_strptime` on the text that `formatTime` prints, same template and
locale. -/
def parseTime : List CString :=
  argvOf ["try_strptime", "Thu Mar 067 13PM", "%a %b %j %H%p", "en_US"]

end Inputs
/-! ## Run equations

The two `main` functions, unfolded once and for all. -/

namespace Reftest

theorem shape12 {α : Type} (l : List α) (hl : 12 ≤ l.length) :
    ∃ a0 a1 a2 a3 a4 a5 a6 a7 a8 a9 a10 a11 rest,
      l = a0 :: a1 :: a2 :: a3 :: a4 :: a5 :: a6 :: a7 :: a8 :: a9 :: a10 :: a11 :: rest := by
  match l, hl with
  | a0 :: a1 :: a2 :: a3 :: a4 :: a5 :: a6 :: a7 :: a8 :: a9 :: a10 :: a11 :: rest, _ =>
    exact ⟨a0, a1, a2, a3, a4, a5, a6, a7, a8, a9, a10, a11, rest, rfl⟩

theorem shape4 {α : Type} (l : List α) (hl : 4 ≤ l.length) :
    ∃ a0 a1 a2 a3 rest, l = a0 :: a1 :: a2 :: a3 :: rest := by
  match l, hl with
  | a0 :: a1 :: a2 :: a3 :: rest, _ => exact ⟨a0, a1, a2, a3, rest, rfl⟩

theorem run_bind {σ α β : Type} (x : Step σ α) (f : α → Step σ β) (p : Proc σ) :
    (x >>= f).run p = Step.andThen (x.run p) (fun a q => (f a).run q) := rfl

theorem run_pure {σ α : Type} (a : α) (p : Proc σ) : (pure a : Step σ α).run p = (a, p) := rfl

theorem andThen_pair {σ α β : Type} (a : α) (p : Proc σ)
    (k : α → Proc σ → β × Proc σ) :
    Step.andThen (a, p) k = k a p := rfl

theorem run_ite {σ α : Type} (c : Prop) [Decidable c] (x y : Step σ α) (p : Proc σ) :
    (if c then x else y).run p = if c then x.run p else y.run p := by
  split <;> rfl

theorem run_argvRead {σ : Type} (argv : List CString) (i : Nat) (p : Proc σ) :
    (argvRead argv i).run p =
      match argv.get? i with
      | some a => (a, { p with reads := p.reads ++ [i] })
      | none => ([], { p with reads := p.reads ++ [i], fault := true }) := rfl

theorem run_call_setlocale {σ : Type} (h : Host σ) (c : Category) (name : CString)
    (p : Proc σ) :
    (call_setlocale h c name).run p =
      ((h.setlocale c name p.locale).1,
       { p with locale := (h.setlocale c name p.locale).2,
                calls := p.calls ++ [Call.setlocale c name] }) := rfl

theorem run_call_atoi {σ : Type} (h : Host σ) (nptr : CString) (p : Proc σ) :
    (call_atoi h nptr).run p = (h.atoi nptr, { p with calls := p.calls ++ [Call.atoi nptr] }) :=
  rfl

theorem run_atoi_argv {σ : Type} (h : Host σ) (argv : List CString) (i : Nat) (p : Proc σ) :
    (atoi_argv h argv i).run p =
      Step.andThen ((argvRead argv i).run p) (fun a q => (call_atoi h a).run q) := rfl

theorem run_call_strftime {σ : Type} (h : Host σ) (size maxsize : Nat) (format : CString)
    (tm : Tm) (p : Proc σ) :
    (call_strftime h size maxsize format tm).run p =
      (h.strftime p.locale maxsize format tm,
       { p with calls := p.calls ++ [Call.strftime size maxsize format tm],
                fault := p.fault ||
                  decide (size < (h.strftime p.locale maxsize format tm).2.length) }) := rfl

theorem run_call_strptime {σ : Type} (h : Host σ) (s format : CString) (tm : Tm)
    (p : Proc σ) :
    (call_strptime h s format tm).run p =
      ((match h.strptime p.locale s format tm with
        | none => (none, tm)
        | some r => (some (s.drop r.1), r.2)),
       { p with calls := p.calls ++ [Call.strptime s format tm] }) := rfl

theorem run_fprintf_stderr {σ : Type} (format : CString) (p : Proc σ) :
    (fprintf_stderr format).run p = ((), { p with stderr := p.stderr ++ vformat format [] }) :=
  rfl

theorem run_printf {σ : Type} (format : CString) (args : List Arg) (p : Proc σ) :
    (printf format args).run p = ((), { p with stdout := p.stdout ++ vformat format args }) :=
  rfl

theorem run_readString {σ : Type} (mem : List Char) (p : Proc σ) :
    (readString mem).run p = (cstr mem, { p with fault := p.fault || !(mem.contains NUL) }) :=
  rfl

theorem vformat_tooFew : vformat (lit "ERROR: too few arguments.\n") [] = tooFew := by
  decide

theorem vformat_string (s : CString) : vformat (lit "%s\n") [Arg.str s] = s ++ ['\n'] := by
  rfl

end Reftest

namespace try_strftime

open Reftest

theorem vformat_returnedZero :
    vformat (lit "ERROR: strftime returned 0.\n") [] = returnedZero := by
  decide

theorem strftime_main_few {σ : Type} (h : Host σ) (argv : List CString) (l0 : σ)
    (hl : argv.length ≤ 11) :
    main h argv l0 =
      (-1, { locale := l0, stdout := [], stderr := tooFew, reads := [], calls := [],
             fault := false }) := by
  have hc : ((argv.length : Nat) : Int) ≤ 11 := by exact_mod_cast hl
  unfold main body
  rw [if_pos hc]
  rfl

theorem strftime_main_run {σ : Type} (h : Host σ) (argv : List CString) (l0 : σ)
    (hl : 12 ≤ argv.length) :
    main h argv l0 =
      if (strftimeResult h argv l0).1 = 0 then
        (-1, { locale := localeAfter h (argv.getD 11 []) l0, stdout := [],
               stderr := returnedZero, reads := readsOfRun, calls := callsOfRun h argv,
               fault := decide (sizeof_s < (strftimeResult h argv l0).2.length) })
      else
        (0, { locale := localeAfter h (argv.getD 11 []) l0,
              stdout := cstr (strftimeResult h argv l0).2 ++ ['\n'],
              stderr := [], reads := readsOfRun, calls := callsOfRun h argv,
              fault := decide (sizeof_s < (strftimeResult h argv l0).2.length) ||
                !((strftimeResult h argv l0).2.contains NUL) }) := by
  have hc : ¬ ((argv.length : Nat) : Int) ≤ 11 := by
    have : (12 : Int) ≤ (argv.length : Int) := by exact_mod_cast hl
    omega
  obtain ⟨a0, a1, a2, a3, a4, a5, a6, a7, a8, a9, a10, a11, rest, rfl⟩ := shape12 argv hl
  unfold main body
  rw [if_neg hc]
  simp only [run_bind, run_pure, andThen_pair, run_ite, run_argvRead, run_call_setlocale,
    run_call_atoi, run_atoi_argv, run_call_strftime, run_fprintf_stderr, run_printf,
    run_readString, Proc.start, List.get?, vformat_string,
    vformat_returnedZero, strftimeResult, localeAfter, tmOfArgv, callsOfRun, readsOfRun,
    List.getD_cons_zero, List.getD_cons_succ, List.nil_append, List.cons_append,
    Bool.false_or]

end try_strftime

namespace try_strptime

open Reftest

theorem vformat_parseFailed :
    vformat (lit "ERROR: strptime failed to parse input.\n") [] = parseFailed := by
  decide

theorem vformat_fields (a b c d e f g i j : Int) (rem : CString) :
    vformat lineFormat ([a, b, c, d, e, f, g, i, j].map Arg.int ++ [Arg.str rem]) =
      decimal a ++ '\t' :: (decimal b ++ '\t' :: (decimal c ++ '\t' :: (decimal d ++ '\t' ::
        (decimal e ++ '\t' :: (decimal f ++ '\t' :: (decimal g ++ '\t' :: (decimal i ++ '\t' ::
          (decimal j ++ '\t' :: (rem ++ ['\n']))))))))) := rfl

theorem vformat_line (tm : Tm) (rem : CString) :
    vformat lineFormat ((outputFields tm).map Arg.int ++ [Arg.str rem]) =
      outputLine (outputFields tm) rem ++ ['\n'] := by
  unfold outputFields
  rw [vformat_fields]
  simp only [outputLine, List.append_assoc, List.cons_append]

theorem strptime_main_few {σ : Type} (h : Host σ) (argv : List CString) (l0 : σ)
    (hl : argv.length < 4) :
    main h argv l0 =
      (-1, { locale := l0, stdout := [], stderr := tooFew, reads := [], calls := [],
             fault := false }) := by
  have hc : ((argv.length : Nat) : Int) < 4 := by exact_mod_cast hl
  unfold main body
  rw [if_pos hc]
  rfl

theorem strptime_main_run {σ : Type} (h : Host σ) (argv : List CString) (l0 : σ)
    (hl : 4 ≤ argv.length) :
    main h argv l0 =
      match parseResult h argv l0 with
      | none =>
        (-1, { locale := localeAfter h (argv.getD 3 []) l0, stdout := [],
               stderr := parseFailed, reads := readsOfRun, calls := callsOfRun argv,
               fault := false })
      | some r =>
        (0, { locale := localeAfter h (argv.getD 3 []) l0,
              stdout := outputLine (outputFields r.2) ((argv.getD 1 []).drop r.1) ++ ['\n'],
              stderr := [], reads := readsOfRun, calls := callsOfRun argv,
              fault := false }) := by
  have hc : ¬ ((argv.length : Nat) : Int) < 4 := by
    have : (4 : Int) ≤ (argv.length : Int) := by exact_mod_cast hl
    omega
  obtain ⟨a0, a1, a2, a3, rest, rfl⟩ := shape4 argv hl
  unfold main body
  rw [if_neg hc]
  simp only [run_bind, run_pure, andThen_pair, run_ite, run_argvRead, run_call_setlocale,
    run_call_strptime, run_fprintf_stderr, run_printf, Proc.start, List.get?,
    vformat_parseFailed, parseResult, localeAfter, callsOfRun, readsOfRun,
    List.getD_cons_zero, List.getD_cons_succ, List.nil_append, List.cons_append]
  cases hres : h.strptime (h.setlocale Category.LC_ALL a3
      (h.setlocale Category.LC_TIME a3 l0).2).2 a1 a2 initTm with
  | none => simp
  | some r => simp [vformat_line]

end try_strptime
/-! ## Arithmetic of `int` -/

namespace Reftest

theorem wrapInt_of_isInt (x : Int) (hx : isInt x) : wrapInt x = x := by
  unfold isInt INT_MIN INT_MAX at hx
  unfold wrapInt
  omega

theorem int_add_int_sub (x k : Int) (hx : isInt x) : int_add (int_sub x k) k = x := by
  unfold isInt INT_MIN INT_MAX at hx
  unfold int_add int_sub wrapInt
  omega

theorem isInt_wrapInt (x : Int) : isInt (wrapInt x) := by
  unfold isInt INT_MIN INT_MAX wrapInt
  omega

theorem minus_one_ne_zero : (-1 : Int) ≠ 0 := by decide

end Reftest

/-! ## The `strftime` call and the array `s` -/

namespace Reftest

theorem cstr_append_nul (t : List Char) : cstr (t ++ [NUL]) = cstr t := by
  induction t with
  | nil => simp [cstr, List.takeWhile]
  | cons c t ih =>
    unfold cstr at ih ⊢
    by_cases hc : (c != NUL) = true
    · simp only [List.cons_append, List.takeWhile_cons, hc, if_true, ih]
    · simp [List.takeWhile_cons, hc]

theorem cstr_of_not_mem (t : List Char) (ht : NUL ∉ t) : cstr t = t := by
  unfold cstr
  rw [List.takeWhile_eq_self_iff]
  intro c hc
  have : c ≠ NUL := fun e => ht (e ▸ hc)
  simpa using this

theorem contains_append_nul (t : List Char) : (t ++ [NUL]).contains NUL = true := by
  simp

end Reftest

namespace try_strftime

open Reftest

theorem limit_value : sizeof_s - 1 = 8191 := by decide

theorem strftimeResult_fits {σ : Type} (h : Host σ) (argv : List CString) (l0 : σ)
    (hfit : (rendering h argv l0).length + 1 ≤ sizeof_s - 1) :
    strftimeResult h argv l0 = ((rendering h argv l0).length, rendering h argv l0 ++ [NUL]) := by
  unfold strftimeResult Host.strftime
  exact if_pos hfit

theorem strftimeResult_exceeds {σ : Type} (h : Host σ) (argv : List CString) (l0 : σ)
    (hbig : ¬ (rendering h argv l0).length + 1 ≤ sizeof_s - 1) :
    strftimeResult h argv l0 =
      (0, (h.residue (localeAfter h (argv.getD 11 []) l0) (argv.getD 1 [])
            (tmOfArgv h argv)).take (sizeof_s - 1)) := by
  unfold strftimeResult Host.strftime
  exact if_neg hbig

/-- The return value of the `strftime` call is 0 exactly when the rendering is
empty or does not fit. -/
theorem strftimeResult_zero_iff {σ : Type} (h : Host σ) (argv : List CString) (l0 : σ) :
    (strftimeResult h argv l0).1 = 0 ↔
      rendering h argv l0 = [] ∨ sizeof_s - 1 < (rendering h argv l0).length + 1 := by
  by_cases hfit : (rendering h argv l0).length + 1 ≤ sizeof_s - 1
  · rw [strftimeResult_fits h argv l0 hfit]
    constructor
    · intro h0
      exact Or.inl (List.length_eq_zero.mp h0)
    · rintro (h0 | h1)
      · simp [h0]
      · omega
  · rw [strftimeResult_exceeds h argv l0 hfit]
    constructor
    · intro _
      exact Or.inr (by omega)
    · intro _
      rfl

/-- The bytes stored by the `strftime` call do not exceed the limit passed. -/
theorem strftimeResult_stored {σ : Type} (h : Host σ) (argv : List CString) (l0 : σ) :
    (strftimeResult h argv l0).2.length ≤ sizeof_s - 1 := by
  by_cases hfit : (rendering h argv l0).length + 1 ≤ sizeof_s - 1
  · rw [strftimeResult_fits h argv l0 hfit]
    simpa using hfit
  · rw [strftimeResult_exceeds h argv l0 hfit]
    exact List.length_take_le _ _

/-- A run that passes the argument check and gets a non-zero return value
from `strftime`. -/
theorem strftime_main_success {σ : Type} (h : Host σ) (argv : List CString) (l0 : σ)
    (hl : 12 ≤ argv.length) (hne : rendering h argv l0 ≠ [])
    (hfit : (rendering h argv l0).length + 1 ≤ sizeof_s - 1) :
    main h argv l0 =
      (0, { locale := localeAfter h (argv.getD 11 []) l0,
            stdout := cstr (rendering h argv l0) ++ ['\n'],
            stderr := [], reads := readsOfRun, calls := callsOfRun h argv,
            fault := false }) := by
  have hz : ¬ (strftimeResult h argv l0).1 = 0 := by
    rw [strftimeResult_zero_iff]
    rintro (h0 | h1)
    · exact hne h0
    · omega
  rw [strftime_main_run h argv l0 hl, if_neg hz, strftimeResult_fits h argv l0 hfit]
  have hlen : ¬ sizeof_s < (rendering h argv l0 ++ [NUL]).length := by
    simp only [List.length_append, List.length_singleton]
    have := limit_value
    omega
  simp only [cstr_append_nul, contains_append_nul, hlen, decide_False, Bool.not_true,
    Bool.or_false]

/-- A run that passes the argument check and gets 0 from `strftime`. -/
theorem strftime_main_failure {σ : Type} (h : Host σ) (argv : List CString) (l0 : σ)
    (hl : 12 ≤ argv.length)
    (hz : rendering h argv l0 = [] ∨ sizeof_s - 1 < (rendering h argv l0).length + 1) :
    main h argv l0 =
      (-1, { locale := localeAfter h (argv.getD 11 []) l0, stdout := [],
             stderr := returnedZero, reads := readsOfRun, calls := callsOfRun h argv,
             fault := false }) := by
  have hz1 : (strftimeResult h argv l0).1 = 0 := (strftimeResult_zero_iff h argv l0).mpr hz
  rw [strftime_main_run h argv l0 hl, if_pos hz1]
  have hlen : ¬ sizeof_s < (strftimeResult h argv l0).2.length := by
    have h1 := strftimeResult_stored h argv l0
    have := limit_value
    omega
  simp only [hlen, decide_False]

end try_strftime

/-! ## The characters of `%d` -/

namespace Reftest

theorem digitChar_isDigit (k : Nat) (hk : k < 10) : (Nat.digitChar k).isDigit = true := by
  interval_cases k <;> decide

theorem toDigitsCore_isDigit (fuel : Nat) :
    ∀ (n : Nat) (ds : List Char), (∀ c ∈ ds, c.isDigit = true) →
      ∀ c ∈ Nat.toDigitsCore 10 fuel n ds, c.isDigit = true := by
  induction fuel with
  | zero =>
    intro n ds hds c hc
    simp only [Nat.toDigitsCore] at hc
    exact hds c hc
  | succ fuel ih =>
    intro n ds hds c hc
    have hd : ∀ c ∈ Nat.digitChar (n % 10) :: ds, c.isDigit = true := by
      intro c hc
      rcases List.mem_cons.mp hc with rfl | hc
      · exact digitChar_isDigit _ (Nat.mod_lt _ (by decide))
      · exact hds c hc
    simp only [Nat.toDigitsCore] at hc
    split at hc
    · exact hd c hc
    · exact ih _ _ hd c hc

theorem toDigits_isDigit (n : Nat) : ∀ c ∈ Nat.toDigits 10 n, c.isDigit = true := by
  unfold Nat.toDigits
  exact toDigitsCore_isDigit _ _ _ (fun _ hc => absurd hc (List.not_mem_nil _))

/-- The text of `%d` holds digits and possibly a minus sign, hence no newline. -/
theorem newline_not_mem_decimal (v : Int) : '\n' ∉ decimal v := by
  intro hmem
  have hnd : ¬ ('\n' : Char).isDigit = true := by decide
  unfold decimal at hmem
  split at hmem
  · rcases List.mem_cons.mp hmem with hc | hc
    · exact absurd hc (by decide)
    · exact hnd (toDigits_isDigit _ _ hc)
  · exact hnd (toDigits_isDigit _ _ hmem)

theorem newline_not_mem_cstr (t : List Char) (ht : '\n' ∉ t) : '\n' ∉ cstr t := by
  intro hmem
  exact ht ((List.takeWhile_sublist _).subset hmem)

end Reftest

namespace try_strptime

open Reftest

theorem newline_not_mem_outputLine (fields : List Int) (rem : CString) (hr : '\n' ∉ rem) :
    '\n' ∉ outputLine fields rem := by
  induction fields with
  | nil => simpa [outputLine] using hr
  | cons v vs ih =>
    intro hmem
    unfold outputLine at hmem
    rcases List.mem_append.mp hmem with hc | hc
    · exact newline_not_mem_decimal v hc
    · rcases List.mem_cons.mp hc with hc | hc
      · exact absurd hc (by decide)
      · exact ih hc

end try_strptime

/-! ## The width of `%Y`

The spec fixes neither the natural maximum width of `%Y` nor whether a
shorter run of digits is accepted.  Whatever the choice, one of two texts that
`try_strftime.c` prints does not parse back: `2024` under `%Y` when the width
is below four, `2021` (the year 202 under `%Y1`) when it is four or more. -/

namespace SpecEngine

open Reftest

/-- The example scenarios of §8 on the engines: the date 2024-03-07 under
`%Y-%m-%d`, the same text parsed back with the other fields left unset, and
`Thursday, March 07` under `%A, %B %d` with the English names. -/
theorem spec_scenarios :
    format english
        { year := 2024, month := 3, day := 7, hour := unset, minute := unset, second := unset,
          weekday := unset, yearday := unset, isDst := unset } (lit "%Y-%m-%d") =
      lit "2024-03-07" ∧
    parse false 4 english (lit "%Y-%m-%d") (lit "2024-03-07")
        { year := unset, month := unset, day := unset, hour := unset, minute := unset,
          second := unset, weekday := unset, yearday := unset, isDst := unset } =
      Except.ok
        ({ year := 2024, month := 3, day := 7, hour := unset, minute := unset, second := unset,
           weekday := unset, yearday := unset, isDst := unset }, []) ∧
    format english
        { year := 2024, month := 3, day := 7, hour := unset, minute := unset, second := unset,
          weekday := 4, yearday := unset, isDst := unset } (lit "%A, %B %d") =
      lit "Thursday, March 07" :=
  ⟨by decide, by rfl, by decide⟩

/-- A template without directives is rendered as it stands. -/
theorem format_literals (t : LocaleTable) (r : CalendarRecord) (template : CString)
    (hlit : '%' ∉ template) : format t r template = template := by
  induction template with
  | nil => rfl
  | cons c rest ih =>
    have hc : c ≠ '%' := fun e => hlit (e ▸ List.mem_cons_self _ _)
    have hrest : '%' ∉ rest := fun hm => hlit (List.mem_cons_of_mem _ hm)
    rw [format.eq_def]
    simp only [hc, if_false, ih hrest]

/-- The rendering of a template of `n` letters `a` is the template. -/
theorem rendering_letters (n : Nat) :
    try_strftime.rendering host (Inputs.formatLetters n) english = List.replicate n 'a' := by
  have hlit : '%' ∉ List.replicate n 'a' := by
    intro hm
    exact absurd (List.eq_of_mem_replicate hm) (by decide)
  exact format_literals _ _ _ hlit

theorem parseNumber_2021 (w : Nat) (hw : 4 ≤ w) :
    parseNumber false w (lit "2021") = some (2021, []) := by
  have hrun : List.takeWhile Char.isDigit (lit "2021") = lit "2021" := by decide
  have hlen : (lit "2021").length ≤ w := by
    have : (lit "2021").length = 4 := by decide
    omega
  unfold parseNumber
  simp only [hrun, List.take_of_length_le hlen, Bool.false_and, Bool.or_false]
  decide

theorem parseNumber_2021_strict (w : Nat) (hw : 4 < w) :
    parseNumber true w (lit "2021") = none := by
  have hrun : List.takeWhile Char.isDigit (lit "2021") = lit "2021" := by decide
  have hlen : (lit "2021").length ≤ w := by
    have : (lit "2021").length = 4 := by decide
    omega
  have hlt : (lit "2021").length < w := by
    have : (lit "2021").length = 4 := by decide
    omega
  unfold parseNumber
  simp only [hrun, List.take_of_length_le hlen, hlt, decide_True, Bool.and_self, Bool.or_true,
    if_true]

theorem parse_short_year (strict : Bool) (w : Nat) (hw : 4 ≤ w) (t : LocaleTable)
    (r : CalendarRecord) :
    parse strict w t (lit "%Y1") (lit "2021") r = Except.error ParseError.LiteralMismatch := by
  have htemplate : lit "%Y1" = ['%', 'Y', '1'] := by decide
  have hd : parseDirective false w t 'Y' (lit "2021") r =
      Except.ok ({ r with year := 2021 }, []) := by
    unfold parseDirective
    rw [if_neg (by decide), if_pos rfl, parseNumber_2021 w hw]
    rfl
  rw [htemplate]
  cases strict with
  | false =>
    rw [parse, if_pos rfl]
    simp only [hd]
    rfl
  | true =>
    rcases Nat.eq_or_lt_of_le hw with h4 | h4
    · subst h4
      have hd4 : parseDirective true 4 t 'Y' (lit "2021") r =
          Except.ok ({ r with year := 2021 }, []) := by
        have hn : parseNumber true 4 (lit "2021") = some (2021, []) := by decide
        unfold parseDirective
        rw [if_neg (by decide), if_pos rfl, hn]
        rfl
      rw [parse, if_pos rfl]
      simp only [hd4]
      rfl
    · have hd2 : parseDirective true w t 'Y' (lit "2021") r =
          Except.error ParseError.LiteralMismatch := by
        unfold parseDirective
        rw [if_neg (by decide), if_pos rfl, parseNumber_2021_strict w h4]
      rw [parse, if_pos rfl]
      simp only [hd2]

end SpecEngine

namespace Claims

open Reftest

/-- For every choice of the two open points of the numeric directives, one of
the two texts fails to parse back: either the parse program does not print the
year 2024 with an empty remainder for the text `2024` under `%Y`, or it fails
on the text `2021` under `%Y1`. -/
theorem year_width_never_round_trips (strict : Bool) (w : Nat) :
    (try_strptime.main (SpecEngine.specHost SpecEngine.atoi strict w Inputs.known SpecEngine.english)
        Inputs.parseYear SpecEngine.english).2.stdout ≠
      lit "2024\t-1\t-1\t-1\t-1\t-1\t-1\t0\t-1\t\n" ∨
    (try_strptime.main (SpecEngine.specHost SpecEngine.atoi strict w Inputs.known SpecEngine.english)
        Inputs.parseShortYear SpecEngine.english).1 ≠ 0 := by
  by_cases hw : 4 ≤ w
  · right
    rw [try_strptime.strptime_main_run _ _ _ (by decide)]
    have hres : try_strptime.parseResult
        (SpecEngine.specHost SpecEngine.atoi strict w Inputs.known SpecEngine.english)
        Inputs.parseShortYear SpecEngine.english = none := by
      show (match SpecEngine.parse strict w _ (lit "%Y1") (lit "2021") _ with
        | Except.error _ => none
        | Except.ok (r, rest) => some ((lit "2021").length - rest.length,
            SpecEngine.tmOfRecord r)) = none
      rw [SpecEngine.parse_short_year strict w hw]
    rw [hres]
    exact minus_one_ne_zero
  · left
    have hw3 : w ≤ 3 := by omega
    cases strict <;> interval_cases w <;> decide

end Claims

/-! ## Decimal digits read back

The digits that `%d` and the numeric directives write give back the number
when read as a run of digits. -/

namespace Reftest

theorem toDigitsCore_eq_append (fuel : Nat) :
    ∀ (n : Nat) (ds : List Char), n < fuel →
      Nat.toDigitsCore 10 fuel n ds = Nat.toDigits 10 n ++ ds := by
  induction fuel using Nat.strong_induction_on with
  | _ fuel ih =>
    intro n ds hn
    cases fuel with
    | zero => omega
    | succ f =>
      have hself : Nat.toDigits 10 n = Nat.toDigitsCore 10 (n + 1) n [] := rfl
      rw [hself]
      simp only [Nat.toDigitsCore]
      by_cases h0 : n / 10 = 0
      · simp only [h0, if_true, List.singleton_append]
      · have hlt : n / 10 < n := Nat.div_lt_self (by omega) (by decide)
        simp only [h0, if_false]
        rw [ih f (by omega) (n / 10) _ (by omega), ih n (by omega) (n / 10) _ hlt]
        simp only [List.append_assoc, List.singleton_append]

theorem toDigits_of_lt_ten (n : Nat) (hn : n < 10) :
    Nat.toDigits 10 n = [Nat.digitChar n] := by
  have hself : Nat.toDigits 10 n = Nat.toDigitsCore 10 (n + 1) n [] := rfl
  have h0 : n / 10 = 0 := Nat.div_eq_of_lt hn
  have hm : n % 10 = n := Nat.mod_eq_of_lt hn
  rw [hself]
  simp only [Nat.toDigitsCore, h0, if_true, hm]

theorem toDigits_of_ten_le (n : Nat) (hn : 10 ≤ n) :
    Nat.toDigits 10 n = Nat.toDigits 10 (n / 10) ++ [Nat.digitChar (n % 10)] := by
  have hself : Nat.toDigits 10 n = Nat.toDigitsCore 10 (n + 1) n [] := rfl
  have h0 : ¬ n / 10 = 0 := by omega
  have hlt : n / 10 < n := Nat.div_lt_self (by omega) (by decide)
  rw [hself]
  simp only [Nat.toDigitsCore, h0, if_false]
  exact toDigitsCore_eq_append n (n / 10) _ hlt

theorem length_toDigits_le (w : Nat) : ∀ n : Nat, n < 10 ^ (w + 1) →
    (Nat.toDigits 10 n).length ≤ w + 1 := by
  induction w with
  | zero =>
    intro n hn
    rw [toDigits_of_lt_ten n (by simpa using hn)]
    exact Nat.le_refl 1
  | succ w ih =>
    intro n hn
    by_cases h10 : n < 10
    · rw [toDigits_of_lt_ten n h10]
      simp only [List.length_singleton]
      omega
    · rw [toDigits_of_ten_le n (by omega), List.length_append, List.length_singleton]
      have hdiv : n / 10 < 10 ^ (w + 1) := by
        rw [Nat.div_lt_iff_lt_mul (by decide)]
        rw [Nat.pow_succ] at hn
        exact hn
      have := ih (n / 10) hdiv
      omega

theorem length_toDigits_ge (w : Nat) : ∀ n : Nat, 10 ^ w ≤ n →
    w + 1 ≤ (Nat.toDigits 10 n).length := by
  induction w with
  | zero =>
    intro n _
    by_cases h10 : n < 10
    · rw [toDigits_of_lt_ten n h10]
      exact Nat.le_refl 1
    · rw [toDigits_of_ten_le n (by omega), List.length_append, List.length_singleton]
      omega
  | succ w ih =>
    intro n hn
    have hpos : 0 < 10 ^ w := by positivity
    have h10 : 10 ≤ n := by
      rw [Nat.pow_succ] at hn
      omega
    rw [toDigits_of_ten_le n h10, List.length_append, List.length_singleton]
    have hdiv : 10 ^ w ≤ n / 10 := by
      rw [Nat.le_div_iff_mul_le (by decide)]
      rw [Nat.pow_succ] at hn
      exact hn
    have := ih (n / 10) hdiv
    omega

end Reftest

namespace SpecEngine

open Reftest

theorem digitChar_value (k : Nat) (hk : k < 10) : (Nat.digitChar k).toNat - 48 = k := by
  interval_cases k <;> decide

theorem digitsValue_append_singleton (ds : List Char) (c : Char) :
    digitsValue (ds ++ [c]) = 10 * digitsValue ds + (c.toNat - 48) := by
  unfold digitsValue
  rw [List.foldl_append]
  rfl

theorem digitsValue_toDigits (n : Nat) : digitsValue (Nat.toDigits 10 n) = n := by
  induction n using Nat.strong_induction_on with
  | _ n ih =>
    by_cases h10 : n < 10
    · rw [toDigits_of_lt_ten n h10]
      show 10 * 0 + ((Nat.digitChar n).toNat - 48) = n
      rw [digitChar_value n h10]
      omega
    · rw [toDigits_of_ten_le n (by omega), digitsValue_append_singleton,
        ih (n / 10) (Nat.div_lt_self (by omega) (by decide)),
        digitChar_value _ (Nat.mod_lt _ (by decide))]
      omega

theorem digitsValue_zeros (k : Nat) (ds : List Char) :
    digitsValue (List.replicate k '0' ++ ds) = digitsValue ds := by
  induction k with
  | zero => rfl
  | succ k ih =>
    rw [List.replicate_succ, List.cons_append]
    exact ih

theorem zeroPad_length (w n : Nat) (hn : n < 10 ^ w) (hw : 0 < w) :
    (zeroPad w n).length = w := by
  obtain ⟨v, rfl⟩ : ∃ v, w = v + 1 := ⟨w - 1, by omega⟩
  have := length_toDigits_le v n hn
  unfold zeroPad
  simp only [List.length_append, List.length_replicate]
  omega

theorem zeroPad_isDigit (w n : Nat) : ∀ c ∈ zeroPad w n, c.isDigit = true := by
  intro c hc
  unfold zeroPad at hc
  rcases List.mem_append.mp hc with h0 | hd
  · rw [List.eq_of_mem_replicate h0]
    decide
  · exact toDigits_isDigit n c hd

theorem zeroPad_value (w n : Nat) : digitsValue (zeroPad w n) = n := by
  unfold zeroPad
  rw [digitsValue_zeros, digitsValue_toDigits]

/-- A zero-padded number of `w` digits in front of any text is read back by a
numeric directive of width `w`, under both readings of short runs. -/
theorem parseNumber_zeroPad (strict : Bool) (w n : Nat) (tail : CString)
    (hn : n < 10 ^ w) (hw : 0 < w) :
    parseNumber strict w (zeroPad w n ++ tail) = some (n, tail) := by
  have hlen := zeroPad_length w n hn hw
  have hrun : (List.takeWhile Char.isDigit (zeroPad w n ++ tail)).take w = zeroPad w n := by
    rw [List.takeWhile_append_of_pos (zeroPad_isDigit w n)]
    exact List.take_left' hlen
  have hne : (zeroPad w n).isEmpty = false := by
    cases hz : zeroPad w n with
    | nil =>
      rw [hz] at hlen
      simp only [List.length_nil] at hlen
      omega
    | cons c cs => rfl
  unfold parseNumber
  simp only [hrun, hne, hlen, Nat.lt_irrefl, decide_False, Bool.and_false, Bool.or_false,
    Bool.false_eq_true, if_false, zeroPad_value, List.drop_left' hlen]

end SpecEngine

/-! ## The parse engine re-reads one rendered directive -/

namespace SpecEngine

open Reftest

theorem renderField_of_nonneg (w : Nat) (v : Int) (hv : 0 ≤ v) :
    renderField w v = zeroPad w v.toNat := by
  have h1 : ¬ v = unset := by
    unfold unset
    omega
  have h2 : ¬ v < 0 := by omega
  have h3 : v.natAbs = v.toNat := by omega
  unfold renderField
  rw [if_neg h1, if_neg h2, h3]

/-- A field within its bounds, rendered with `width` digits, is read back by
the numeric directive of that width and passes the range validation. -/
theorem parseField_renderField (strict : Bool) (w lo hi : Nat) (v : Int) (tail : CString)
    (hlo : (lo : Int) ≤ v) (hhi : v ≤ (hi : Int)) (hw : hi < 10 ^ w) (hw0 : 0 < w) :
    parseField strict w lo hi (renderField w v ++ tail) = Except.ok (v.toNat, tail) := by
  have hv : 0 ≤ v := by omega
  have hn : v.toNat < 10 ^ w := by omega
  have hr : lo ≤ v.toNat ∧ v.toNat ≤ hi := by omega
  unfold parseField
  rw [renderField_of_nonneg w v hv, parseNumber_zeroPad strict w v.toNat tail hn hw0]
  simp only [hr, and_self, if_true]

theorem takeWhile_of_not_startsWithDigit (s : CString) (h : startsWithDigit s = false) :
    s.takeWhile Char.isDigit = [] := by
  cases s with
  | nil => rfl
  | cons c rest =>
    have hc : c.isDigit = false := h
    simp only [List.takeWhile, hc]

theorem toDigits_ne_nil (n : Nat) : Nat.toDigits 10 n ≠ [] := by
  intro hnil
  have h := length_toDigits_ge 0 n
  by_cases h1 : 1 ≤ n
  · have := h (by simpa using h1)
    rw [hnil] at this
    simp at this
  · have h0 : n = 0 := by omega
    subst h0
    exact absurd hnil (by decide)

/-- A run of digits that fills the width, or a shorter one that no digit
follows where short runs are accepted, is read back by the numeric directive
in front of any text. -/
theorem parseNumber_digits (strict : Bool) (w : Nat) (ds tail : CString)
    (hds : ∀ c ∈ ds, c.isDigit = true) (hne : ds ≠ [])
    (hfit : ds.length = w ∨
      (strict = false ∧ ds.length < w ∧ startsWithDigit tail = false)) :
    parseNumber strict w (ds ++ tail) = some (digitsValue ds, tail) := by
  have hrun : ((ds ++ tail).takeWhile Char.isDigit).take w = ds := by
    rw [List.takeWhile_append_of_pos hds]
    rcases hfit with hlen | ⟨_, hlen, htail⟩
    · exact List.take_left' hlen
    · rw [takeWhile_of_not_startsWithDigit tail htail, List.append_nil]
      exact List.take_of_length_le (by omega)
  have hempty : ds.isEmpty = false := by
    cases ds with
    | nil => exact absurd rfl hne
    | cons _ _ => rfl
  have hshort : (strict && decide (ds.length < w)) = false := by
    rcases hfit with hlen | ⟨hs, _, _⟩
    · have : ¬ ds.length < w := by omega
      simp only [this, decide_False, Bool.and_false]
    · rw [hs]
      rfl
  unfold parseNumber
  simp only [hrun, hempty, hshort, Bool.or_false, Bool.false_eq_true, if_false,
    List.drop_left]

/-- A rendered year is read back by `%Y` under the condition `yearRereads`. -/
theorem parseNumber_decimal (strict : Bool) (w : Nat) (y : Int) (tail : CString)
    (hy : yearRereads strict w y tail = true) :
    parseNumber strict w (decimal y ++ tail) = some (y.toNat, tail) := by
  unfold yearRereads at hy
  simp only [Bool.and_eq_true, Bool.or_eq_true, decide_eq_true_eq, Bool.not_eq_true'] at hy
  obtain ⟨hnonneg, hfit⟩ := hy
  have h2 : ¬ y < 0 := by omega
  have h3 : y.natAbs = y.toNat := by omega
  have hdec : decimal y = Nat.toDigits 10 y.toNat := by
    unfold decimal
    rw [if_neg h2, h3]
  rw [hdec]
  have h := parseNumber_digits strict w (Nat.toDigits 10 y.toNat) tail
    (toDigits_isDigit y.toNat) (toDigits_ne_nil y.toNat)
    (by
      rcases hfit with h1 | ⟨⟨hs, hl⟩, ht⟩
      · exact Or.inl h1
      · exact Or.inr ⟨hs, hl, ht⟩)
  rw [h, digitsValue_toDigits]

theorem longestMatch_eq_foldl (cands : List (Nat × CString)) (input : CString) :
    longestMatch cands input = cands.foldl (betterMatch input) none := rfl

/-- A best match of length `len` stays when no later candidate that matches
is longer. -/
theorem foldl_betterMatch_stable (input : CString) (len i : Nat) :
    ∀ cands : List (Nat × CString),
      (∀ e ∈ cands, nameMatches e.2 input = true → e.2.length ≤ len) →
      cands.foldl (betterMatch input) (some (i, len)) = some (i, len) := by
  intro cands
  induction cands with
  | nil => intro _; rfl
  | cons e rest ih =>
    intro hall
    have hrest : ∀ x ∈ rest, nameMatches x.2 input = true → x.2.length ≤ len :=
      fun x hx => hall x (List.mem_cons_of_mem _ hx)
    have hstep : betterMatch input (some (i, len)) e = some (i, len) := by
      unfold betterMatch
      by_cases hm : nameMatches e.2 input = true
      · have hle := hall e (List.mem_cons_self _ _) hm
        have hlt : ¬ len < e.2.length := by omega
        rw [if_pos hm]
        simp only [hlt, if_false]
      · rw [if_neg hm]
    rw [List.foldl_cons, hstep]
    exact ih hrest

/-- The search ends at the first matching candidate of length `len` when no
candidate that matches is longer and the best match so far is shorter. -/
theorem foldl_betterMatch_first (input : CString) (len : Nat) (e0 : Nat × CString) :
    ∀ (cands : List (Nat × CString)) (best : Option (Nat × Nat)),
      (∀ e ∈ cands, nameMatches e.2 input = true → e.2.length ≤ len) →
      (∀ b, best = some b → b.2 < len) →
      cands.find? (fun e => nameMatches e.2 input && decide (e.2.length = len)) = some e0 →
      cands.foldl (betterMatch input) best = some (e0.1, len) := by
  intro cands
  induction cands with
  | nil =>
    intro best _ _ hfind
    exact absurd hfind (by simp)
  | cons e rest ih =>
    intro best hall hbest hfind
    have hrest : ∀ x ∈ rest, nameMatches x.2 input = true → x.2.length ≤ len :=
      fun x hx => hall x (List.mem_cons_of_mem _ hx)
    rw [List.foldl_cons]
    by_cases hq : (nameMatches e.2 input && decide (e.2.length = len)) = true
    · have he0 : e = e0 := by
        have h := hfind
        rw [List.find?_cons] at h
        simp only [hq] at h
        exact Option.some.inj h
      simp only [Bool.and_eq_true, decide_eq_true_eq] at hq
      obtain ⟨hm, hlen⟩ := hq
      have hstep : betterMatch input best e = some (e.1, len) := by
        unfold betterMatch
        rw [if_pos hm]
        cases hb : best with
        | none => simp only [hlen]
        | some b =>
          have hlt : b.2 < e.2.length := by
            have := hbest b hb
            omega
          show (if b.2 < e.2.length then some (e.1, e.2.length) else some b) = some (e.1, len)
          rw [if_pos hlt, hlen]
      rw [hstep, ← he0]
      exact foldl_betterMatch_stable input len e.1 rest hrest
    · have hfind2 : rest.find? (fun e => nameMatches e.2 input && decide (e.2.length = len)) =
          some e0 := by
        have h := hfind
        rw [List.find?_cons] at h
        simp only [Bool.eq_false_iff.mpr hq] at h
        exact h
      apply ih _ hrest _ hfind2
      intro b hb
      unfold betterMatch at hb
      by_cases hm : nameMatches e.2 input = true
      · have hle := hall e (List.mem_cons_self _ _) hm
        have hne : e.2.length ≠ len := by
          intro heq
          apply hq
          simp only [hm, heq, decide_True, Bool.and_self]
        rw [if_pos hm] at hb
        cases hbest0 : best with
        | none =>
          rw [hbest0] at hb
          simp only [Option.some.injEq] at hb
          rw [← hb]
          show e.2.length < len
          omega
        | some b0 =>
          rw [hbest0] at hb
          have hb0 := hbest b0 hbest0
          by_cases hlt : b0.2 < e.2.length
          · simp only [hlt, if_true, Option.some.injEq] at hb
            rw [← hb]
            show e.2.length < len
            omega
          · simp only [hlt, if_false, Option.some.injEq] at hb
            rw [← hb]
            exact hb0
      · rw [if_neg hm] at hb
        exact hbest b hb

/-- Under the condition `nameRereads`, the lookup of a rendered name finds a
candidate of an accepted index and of the length of the name. -/
theorem longestMatch_of_nameRereads (cands : List (Nat × CString)) (sameIndex : Nat → Bool)
    (name tail : CString) (h : nameRereads cands sameIndex name tail = true) :
    ∃ i, sameIndex i = true ∧ longestMatch cands (name ++ tail) = some (i, name.length) := by
  unfold nameRereads at h
  simp only [Bool.and_eq_true, List.all_eq_true, Bool.or_eq_true, Bool.not_eq_true',
    decide_eq_true_eq] at h
  obtain ⟨hall, hfirst⟩ := h
  have hall2 : ∀ e ∈ cands, nameMatches e.2 (name ++ tail) = true →
      e.2.length ≤ name.length := by
    intro e he hm
    rcases hall e he with hno | hle
    · rw [hm] at hno
      exact absurd hno (by decide)
    · exact hle
  cases hfind : cands.find? (fun e =>
      nameMatches e.2 (name ++ tail) && decide (e.2.length = name.length)) with
  | none =>
    rw [hfind] at hfirst
    exact absurd hfirst Bool.false_ne_true
  | some e0 =>
    rw [hfind] at hfirst
    refine ⟨e0.1, hfirst, ?_⟩
    rw [longestMatch_eq_foldl]
    exact foldl_betterMatch_first (name ++ tail) name.length e0 cands none hall2
      (fun b hb => Option.noConfusion hb) hfind

/-- Under the condition `lookupRereads`, the rendered name is the one at the
index, and the name directive reads it back with that index. -/
theorem parseName_nameAt (rendered abbr full : List CString) (index : Int) (tail : CString)
    (h : lookupRereads rendered abbr full index tail = true) :
    0 ≤ index ∧
      parseName abbr full (nameAt rendered index ++ tail) = Except.ok (index.toNat, tail) := by
  unfold lookupRereads at h
  simp only [Bool.and_eq_true, decide_eq_true_eq] at h
  obtain ⟨hidx, hlook⟩ := h
  refine ⟨hidx, ?_⟩
  cases hget : rendered.get? index.toNat with
  | none =>
    rw [hget] at hlook
    exact absurd hlook Bool.false_ne_true
  | some name =>
    rw [hget] at hlook
    have hname : nameAt rendered index = name := by
      unfold nameAt
      rw [if_pos hidx, hget]
      rfl
    obtain ⟨i, hi, hmatch⟩ := longestMatch_of_nameRereads _ _ name tail hlook
    have hi2 : i = index.toNat := by simpa using hi
    unfold parseName
    rw [hname, hmatch, hi2]
    simp only [List.drop_left]

/-- Under the condition `nameRereads`, the directive `%p` reads the rendered
marker back. -/
theorem parseName_marker (t : LocaleTable) (isPm : Bool) (tail : CString)
    (h : nameRereads ([t.am, t.pm].enum ++ ([] : List CString).enum) (fun _ => true)
      (amPmMarker t isPm) tail = true) :
    ∃ i, parseName [t.am, t.pm] [] (amPmMarker t isPm ++ tail) = Except.ok (i, tail) := by
  obtain ⟨i, _, hmatch⟩ := longestMatch_of_nameRereads _ _ _ tail h
  refine ⟨i, ?_⟩
  unfold parseName
  rw [hmatch]
  simp only [List.drop_left]

theorem within_bounds (lo hi v : Int) (h : within lo hi v = true) : lo ≤ v ∧ v ≤ hi := by
  unfold within at h
  simpa using h

/-- The parse engine reads back what the format engine renders for a covered
directive, in front of any text for which `directiveRereads` holds, and gives
the field that the directive names the value that was rendered. -/
theorem parseDirective_formatDirective (strict : Bool) (w : Nat) (t : LocaleTable) (d : Char)
    (r r0 : CalendarRecord) (tail : CString) (hd : coveredDirective d = true)
    (hr : directiveRereads strict w t r d tail = true) :
    parseDirective strict w t d (formatDirective t r d ++ tail) r0 =
      Except.ok (assign d r r0, tail) := by
  have hcases : d = '%' ∨ d = 'Y' ∨ d = 'm' ∨ d = 'd' ∨ d = 'H' ∨ d = 'M' ∨ d = 'S' ∨
      d = 'j' ∨ d = 'a' ∨ d = 'A' ∨ d = 'b' ∨ d = 'B' ∨ d = 'p' := by
    simpa [coveredDirective, or_assoc] using hd
  rcases hcases with rfl | rfl | rfl | rfl | rfl | rfl | rfl | rfl | rfl | rfl | rfl | rfl | rfl
  · rfl
  · have hy : yearRereads strict w r.year tail = true := hr
    have hnonneg : 0 ≤ r.year := by
      unfold yearRereads at hy
      simp only [Bool.and_eq_true, decide_eq_true_eq] at hy
      exact hy.1
    have hback : ((r.year.toNat : Nat) : Int) = r.year := Int.toNat_of_nonneg hnonneg
    unfold parseDirective formatDirective assign
    rw [if_neg (by decide), if_pos rfl, if_neg (by decide), if_pos rfl, if_pos rfl,
      parseNumber_decimal strict w r.year tail hy]
    simp only [hback]
  · obtain ⟨h1, h2⟩ := within_bounds _ _ _ (show within 1 12 r.month = true from hr)
    have hback : ((r.month.toNat : Nat) : Int) = r.month := Int.toNat_of_nonneg (by omega)
    unfold parseDirective formatDirective assign
    simp only [Char.reduceEq, if_false, if_true,
      parseField_renderField strict 2 1 12 r.month tail (by omega) (by omega) (by decide)
        (by decide), Except.map, hback]
  · obtain ⟨h1, h2⟩ := within_bounds _ _ _ (show within 1 31 r.day = true from hr)
    have hback : ((r.day.toNat : Nat) : Int) = r.day := Int.toNat_of_nonneg (by omega)
    unfold parseDirective formatDirective assign
    simp only [Char.reduceEq, if_false, if_true,
      parseField_renderField strict 2 1 31 r.day tail (by omega) (by omega) (by decide)
        (by decide), Except.map, hback]
  · obtain ⟨h1, h2⟩ := within_bounds _ _ _ (show within 0 23 r.hour = true from hr)
    have hback : ((r.hour.toNat : Nat) : Int) = r.hour := Int.toNat_of_nonneg (by omega)
    unfold parseDirective formatDirective assign
    simp only [Char.reduceEq, if_false, if_true,
      parseField_renderField strict 2 0 23 r.hour tail (by omega) (by omega) (by decide)
        (by decide), Except.map, hback]
  · obtain ⟨h1, h2⟩ := within_bounds _ _ _ (show within 0 59 r.minute = true from hr)
    have hback : ((r.minute.toNat : Nat) : Int) = r.minute := Int.toNat_of_nonneg (by omega)
    unfold parseDirective formatDirective assign
    simp only [Char.reduceEq, if_false, if_true,
      parseField_renderField strict 2 0 59 r.minute tail (by omega) (by omega) (by decide)
        (by decide), Except.map, hback]
  · obtain ⟨h1, h2⟩ := within_bounds _ _ _ (show within 0 61 r.second = true from hr)
    have hback : ((r.second.toNat : Nat) : Int) = r.second := Int.toNat_of_nonneg (by omega)
    unfold parseDirective formatDirective assign
    simp only [Char.reduceEq, if_false, if_true,
      parseField_renderField strict 2 0 61 r.second tail (by omega) (by omega) (by decide)
        (by decide), Except.map, hback]
  · obtain ⟨h1, h2⟩ := within_bounds _ _ _ (show within 0 365 r.yearday = true from hr)
    have hback : ((r.yearday.toNat : Nat) : Int) = r.yearday :=
      Int.toNat_of_nonneg (by omega)
    unfold parseDirective formatDirective assign
    simp only [Char.reduceEq, if_false, if_true,
      parseField_renderField strict 3 0 365 r.yearday tail (by omega) (by omega) (by decide)
        (by decide), Except.map, hback]
  · obtain ⟨h0, hp⟩ := parseName_nameAt t.weekdaysAbbr t.weekdaysAbbr t.weekdays r.weekday
      tail hr
    have hback : ((r.weekday.toNat : Nat) : Int) = r.weekday := Int.toNat_of_nonneg h0
    unfold parseDirective formatDirective assign
    simp only [Char.reduceEq, if_false, if_true, true_or, or_true, hp, Except.map, hback]
  · obtain ⟨h0, hp⟩ := parseName_nameAt t.weekdays t.weekdaysAbbr t.weekdays r.weekday
      tail hr
    have hback : ((r.weekday.toNat : Nat) : Int) = r.weekday := Int.toNat_of_nonneg h0
    unfold parseDirective formatDirective assign
    simp only [Char.reduceEq, if_false, if_true, true_or, or_true, hp, Except.map, hback]
  · obtain ⟨h0, hp⟩ := parseName_nameAt t.monthsAbbr t.monthsAbbr t.months (r.month - 1)
      tail hr
    have hback : (((r.month - 1).toNat : Nat) : Int) + 1 = r.month := by
      rw [Int.toNat_of_nonneg h0]
      omega
    unfold parseDirective formatDirective assign
    simp only [Char.reduceEq, if_false, if_true, true_or, or_true, or_false, false_or, hp,
      Except.map, hback]
  · obtain ⟨h0, hp⟩ := parseName_nameAt t.months t.monthsAbbr t.months (r.month - 1)
      tail hr
    have hback : (((r.month - 1).toNat : Nat) : Int) + 1 = r.month := by
      rw [Int.toNat_of_nonneg h0]
      omega
    unfold parseDirective formatDirective assign
    simp only [Char.reduceEq, if_false, if_true, true_or, or_true, or_false, false_or, hp,
      Except.map, hback]
  · have hr2 : (decide (r.hour ≠ unset) &&
        nameRereads ([t.am, t.pm].enum ++ ([] : List CString).enum) (fun _ => true)
          (amPmMarker t (decide (12 ≤ r.hour))) tail) = true := hr
    simp only [Bool.and_eq_true, decide_eq_true_eq] at hr2
    obtain ⟨hset, hname⟩ := hr2
    obtain ⟨i, hp⟩ := parseName_marker t (decide (12 ≤ r.hour)) tail hname
    unfold parseDirective formatDirective assign
    simp only [Char.reduceEq, if_false, if_true, or_self, hset, hp, Except.map]

end SpecEngine
namespace SpecEngine

open Reftest

theorem parse_format_bounded (strict : Bool) (w : Nat) (t : LocaleTable) (r : CalendarRecord) :
    ∀ (n : Nat) (template : CString), template.length ≤ n →
      ∀ (r0 : CalendarRecord) (tail : CString), coveredTemplate template = true →
        rereads strict w t r template tail = true →
        parse strict w t template (format t r template ++ tail) r0 =
          Except.ok (update template r r0, tail) := by
  intro n
  induction n with
  | zero =>
    intro template hlen r0 tail _ _
    have : template = [] := List.length_eq_zero.mp (by omega)
    subst this
    rfl
  | succ n ih =>
    intro template hlen r0 tail hcov hre
    cases template with
    | nil => rfl
    | cons c rest =>
      by_cases hc : c = '%'
      · subst hc
        cases rest with
        | nil => exact absurd hcov (by decide)
        | cons d rest1 =>
          have hboth : coveredDirective d = true ∧ coveredTemplate rest1 = true := by
            have h := hcov
            rw [coveredTemplate.eq_def] at h
            simpa using h
          have hre2 : directiveRereads strict w t r d (format t r rest1 ++ tail) = true ∧
              rereads strict w t r rest1 tail = true := by
            have h := hre
            rw [rereads.eq_def] at h
            simpa using h
          have hlen1 : rest1.length ≤ n := by
            simp only [List.length_cons] at hlen
            omega
          rw [format.eq_def, parse.eq_def, update.eq_def]
          simp only [if_true, List.append_assoc]
          rw [parseDirective_formatDirective strict w t d r r0 _ hboth.1 hre2.1]
          exact ih rest1 hlen1 _ tail hboth.2 hre2.2
      · have hrest : coveredTemplate rest = true := by
          have h := hcov
          rw [coveredTemplate.eq_def] at h
          simpa [hc] using h
        have hre2 : rereads strict w t r rest tail = true := by
          have h := hre
          rw [rereads.eq_def] at h
          simpa [hc] using h
        have hlen1 : rest.length ≤ n := by
          simp only [List.length_cons] at hlen
          omega
        rw [format.eq_def, parse.eq_def, update.eq_def]
        simp only [hc, if_false, List.cons_append, parseLiteral, if_true]
        exact ih rest hlen1 r0 tail hrest hre2

/-- The parse engine re-reads what the format engine renders: for a template
of literal characters and covered directives, and a record for which
`rereads` holds in front of the text `tail`, parsing the rendering followed by
`tail` gives the fields that the template names and leaves `tail`. -/
theorem parse_format (strict : Bool) (w : Nat) (t : LocaleTable) (r r0 : CalendarRecord)
    (template tail : CString) (hcov : coveredTemplate template = true)
    (hre : rereads strict w t r template tail = true) :
    parse strict w t template (format t r template ++ tail) r0 =
      Except.ok (update template r r0, tail) :=
  parse_format_bounded strict w t r template.length template (Nat.le_refl _) r0 tail hcov hre

end SpecEngine
namespace SpecEngine

open Reftest

theorem atoi_isInt (nptr : CString) : isInt (atoi nptr) := by
  unfold atoi
  exact isInt_wrapInt _

theorem assign_names (d : Char) (r r0 : CalendarRecord)
    (b1 b2 b3 b4 b5 b6 b7 b8 b9 b10 b11 : Bool) (hd : coveredDirective d = true) :
    ({ year := if b1 then r.year else (assign d r r0).year
       month := if b2 || (b8 || b9) then r.month else (assign d r r0).month
       day := if b3 then r.day else (assign d r r0).day
       hour := if b4 then r.hour else (assign d r r0).hour
       minute := if b5 then r.minute else (assign d r r0).minute
       second := if b6 then r.second else (assign d r r0).second
       weekday := if b10 || b11 then r.weekday else (assign d r r0).weekday
       yearday := if b7 then r.yearday else (assign d r r0).yearday
       isDst := r0.isDst } : CalendarRecord) =
    { year := if (decide (d = 'Y') || b1) then r.year else r0.year
      month := if (decide (d = 'm') || b2) || ((decide (d = 'b') || b8) ||
        (decide (d = 'B') || b9)) then r.month else r0.month
      day := if (decide (d = 'd') || b3) then r.day else r0.day
      hour := if (decide (d = 'H') || b4) then r.hour else r0.hour
      minute := if (decide (d = 'M') || b5) then r.minute else r0.minute
      second := if (decide (d = 'S') || b6) then r.second else r0.second
      weekday := if (decide (d = 'a') || b10) || (decide (d = 'A') || b11) then r.weekday
        else r0.weekday
      yearday := if (decide (d = 'j') || b7) then r.yearday else r0.yearday
      isDst := r0.isDst } := by
  have hcases : d = '%' ∨ d = 'Y' ∨ d = 'm' ∨ d = 'd' ∨ d = 'H' ∨ d = 'M' ∨ d = 'S' ∨
      d = 'j' ∨ d = 'a' ∨ d = 'A' ∨ d = 'b' ∨ d = 'B' ∨ d = 'p' := by
    simpa [coveredDirective, or_assoc] using hd
  rcases hcases with rfl | rfl | rfl | rfl | rfl | rfl | rfl | rfl | rfl | rfl | rfl | rfl |
    rfl <;>
    simp [assign]

/-- The record after a round trip: every field that a directive of the
template names has the value of `r`, every other field the value of `r0`. -/
theorem update_eq_names_bounded (r : CalendarRecord) :
    ∀ (n : Nat) (template : CString), template.length ≤ n →
      ∀ r0 : CalendarRecord, coveredTemplate template = true →
        update template r r0 =
          { year := if names 'Y' template then r.year else r0.year
            month := if names 'm' template || (names 'b' template || names 'B' template)
              then r.month else r0.month
            day := if names 'd' template then r.day else r0.day
            hour := if names 'H' template then r.hour else r0.hour
            minute := if names 'M' template then r.minute else r0.minute
            second := if names 'S' template then r.second else r0.second
            weekday := if names 'a' template || names 'A' template then r.weekday
              else r0.weekday
            yearday := if names 'j' template then r.yearday else r0.yearday
            isDst := r0.isDst } := by
  intro n
  induction n with
  | zero =>
    intro template hlen r0 _
    have : template = [] := List.length_eq_zero.mp (by omega)
    subst this
    rfl
  | succ n ih =>
    intro template hlen r0 hcov
    cases template with
    | nil => rfl
    | cons c rest =>
      by_cases hc : c = '%'
      · subst hc
        cases rest with
        | nil => exact absurd hcov (by decide)
        | cons d rest1 =>
          have hboth : coveredDirective d = true ∧ coveredTemplate rest1 = true := by
            have h := hcov
            rw [coveredTemplate.eq_def] at h
            simpa using h
          have hlen1 : rest1.length ≤ n := by
            simp only [List.length_cons] at hlen
            omega
          have hstep : update ('%' :: d :: rest1) r r0 = update rest1 r (assign d r r0) := by
            rw [update.eq_def]
            simp only [if_true]
          have hnames : ∀ e : Char,
              names e ('%' :: d :: rest1) = (decide (d = e) || names e rest1) := by
            intro e
            rw [names.eq_def]
            simp only [if_true]
          have hi : (assign d r r0).isDst = r0.isDst := by
            unfold assign
            simp only [apply_ite CalendarRecord.isDst, ite_self]
          rw [hstep, ih rest1 hlen1 _ hboth.2, hi]
          simp only [hnames]
          exact assign_names d r r0 _ _ _ _ _ _ _ _ _ _ _ hboth.1
      · have hrest : coveredTemplate rest = true := by
          have h := hcov
          rw [coveredTemplate.eq_def] at h
          simpa [hc] using h
        have hlen1 : rest.length ≤ n := by
          simp only [List.length_cons] at hlen
          omega
        have hstep : update (c :: rest) r r0 = update rest r r0 := by
          rw [update.eq_def]
          simp only [hc, if_false]
        have hnames : ∀ e : Char, names e (c :: rest) = names e rest := by
          intro e
          rw [names.eq_def]
          simp only [hc, if_false]
        rw [hstep, ih rest hlen1 r0 hrest]
        simp only [hnames]

end SpecEngine
/-! ## Round trip through the two programs -/

namespace SpecEngine

open Reftest

theorem wrapInt_add_sub (x k : Int) (hx : isInt x) : wrapInt (x - k + k) = x := by
  have : x - k + k = x := by omega
  rw [this]
  exact wrapInt_of_isInt x hx

/-- The record that `strftime` of the host sees is the record of the values
returned by `atoi`, when the three offset fields stay representable. -/
theorem recordOfTm_tmOfArgv (a : CString → Int) (strict : Bool) (w : Nat)
    (known : List (CString × LocaleTable)) (dflt : LocaleTable)
    (prog template year month day hour minute second weekday yearday isDst locale : CString)
    (hy : isInt (a year - 1900)) (hm : isInt (a month - 1))
    (hj : isInt (a yearday - 1)) :
    recordOfTm (try_strftime.tmOfArgv (specHost a strict w known dflt)
        (Inputs.formatArgv prog template year month day hour minute second weekday yearday
          isDst locale)) =
      supplied a year month day hour minute second weekday yearday isDst := by
  have h1 : int_sub (a year) 1900 + 1900 = a year := by
    unfold int_sub
    rw [wrapInt_of_isInt _ hy]
    omega
  have h2 : int_sub (a month) 1 + 1 = a month := by
    unfold int_sub
    rw [wrapInt_of_isInt _ hm]
    omega
  have h3 : int_sub (a yearday) 1 + 1 = a yearday := by
    unfold int_sub
    rw [wrapInt_of_isInt _ hj]
    omega
  show ({ year := int_sub (a year) 1900 + 1900
          month := int_sub (a month) 1 + 1
          day := a day
          hour := a hour
          minute := a minute
          second := a second
          weekday := a weekday
          yearday := int_sub (a yearday) 1 + 1
          isDst := a isDst } : CalendarRecord) = _
  rw [h1, h2, h3]
  rfl

/-- The numbers printed for the record that the parse engine returns after a
round trip. -/
theorem outputFields_update (template : CString) (r : CalendarRecord)
    (hcov : coveredTemplate template = true)
    (hy : isInt r.year) (hm : isInt r.month) (hj : isInt r.yearday) :
    try_strptime.outputFields
        (tmOfRecord (update template r (recordOfTm try_strptime.initTm))) =
      roundTripFields template r := by
  have hinit : recordOfTm try_strptime.initTm =
      { year := -1, month := -1, day := -1, hour := -1, minute := -1, second := -1,
        weekday := -1, yearday := 0, isDst := -1 } := by decide
  rw [update_eq_names_bounded r template.length template (Nat.le_refl _) _ hcov, hinit]
  have hone : isInt (-1) := by decide
  have hzero : isInt 0 := by decide
  unfold try_strptime.outputFields tmOfRecord roundTripFields int_add
  simp only
  congr 1
  · split
    · exact wrapInt_add_sub _ _ hy
    · exact wrapInt_add_sub _ _ hone
  · congr 1
    · split
      · exact wrapInt_add_sub _ _ hm
      · exact wrapInt_add_sub _ _ hone
    · congr 5
      congr 1
      split
      · exact wrapInt_add_sub _ _ hj
      · exact wrapInt_add_sub _ _ hzero

end SpecEngine
/-! ## The claims -/

namespace Claims

open Reftest

/-- C9: the field conversions of the two programs are mutually inverse.  For
nine `int` values, building the `struct tm` as `try_strftime.c` does (year -
1900, month - 1, yearday - 1, the others unchanged) and applying the output
conversion of `try_strptime.c` (tm_year + 1900, tm_mon + 1, tm_yday + 1, the
others unchanged) gives back the nine values in output order, also where the
subtraction wraps modulo 2^32.  Only the three offset fields need the range
assumption. -/
theorem C9_conversions_inverse (sec min hour mday mon year wday yday isdst : Int)
    (hmon : isInt mon) (hyear : isInt year) (hyday : isInt yday) :
    try_strptime.outputFields
        (try_strftime.buildTm sec min hour mday mon year wday yday isdst) =
      [year, mon, mday, hour, min, sec, wday, yday, isdst] := by
  simp only [try_strptime.outputFields, try_strftime.buildTm,
    int_add_int_sub year 1900 hyear, int_add_int_sub mon 1 hmon, int_add_int_sub yday 1 hyday]

/-- Witness of C9 at the smallest `int`, where all three subtractions wrap:
the intermediate `tm_year` is 2147481748, and the output conversion still
returns the original values. -/
theorem C9_conversions_inverse_witness :
    isInt (-2147483648) ∧
    (try_strftime.buildTm 59 58 23 31 (-2147483648) (-2147483648) 6 (-2147483648) 1).tm_year =
      2147481748 ∧
    try_strptime.outputFields
        (try_strftime.buildTm 59 58 23 31 (-2147483648) (-2147483648) 6 (-2147483648) 1) =
      [-2147483648, -2147483648, 31, 23, 58, 59, 6, -2147483648, 1] :=
  ⟨by decide, by decide,
   C9_conversions_inverse 59 58 23 31 (-2147483648) (-2147483648) 6 (-2147483648) 1
     (by decide) (by decide) (by decide)⟩

/-- C10: argument indexing is safe in both programs.  Every `argv[i]` that a
run reads has `1 ≤ i < argc`.  `try_strftime.c` reads only when `argc ≥ 12`,
and then exactly the indices 11, 11, 7, 6, 5, 4, 3, 2, 8, 9, 10, 1;
`try_strptime.c` reads only when `argc ≥ 4`, and then exactly 3, 3, 1, 2.  On
the too-few-arguments branch nothing is read and no library routine is
called.  No run of either program accesses memory outside an object. -/
theorem C10_argv_indexing_safe {σ : Type} (h : Host σ) (argv : List CString) (l0 : σ) :
    (∀ i ∈ (try_strftime.main h argv l0).2.reads, 1 ≤ i ∧ i ≤ 11 ∧ i < argv.length) ∧
    ((try_strftime.main h argv l0).2.reads =
        if 12 ≤ argv.length then [11, 11, 7, 6, 5, 4, 3, 2, 8, 9, 10, 1] else []) ∧
    (argv.length ≤ 11 →
      (try_strftime.main h argv l0).2.reads = [] ∧ (try_strftime.main h argv l0).2.calls = []) ∧
    (∀ i ∈ (try_strptime.main h argv l0).2.reads, 1 ≤ i ∧ i ≤ 3 ∧ i < argv.length) ∧
    ((try_strptime.main h argv l0).2.reads = if 4 ≤ argv.length then [3, 3, 1, 2] else []) ∧
    (argv.length < 4 →
      (try_strptime.main h argv l0).2.reads = [] ∧ (try_strptime.main h argv l0).2.calls = []) ∧
    (try_strftime.main h argv l0).2.fault = false ∧
    (try_strptime.main h argv l0).2.fault = false := by
  have hF : (try_strftime.main h argv l0).2.reads =
      if 12 ≤ argv.length then [11, 11, 7, 6, 5, 4, 3, 2, 8, 9, 10, 1] else [] := by
    by_cases hl : 12 ≤ argv.length
    · rw [try_strftime.strftime_main_run h argv l0 hl, if_pos hl]
      split <;> rfl
    · rw [try_strftime.strftime_main_few h argv l0 (by omega), if_neg hl]
  have hP : (try_strptime.main h argv l0).2.reads =
      if 4 ≤ argv.length then [3, 3, 1, 2] else [] := by
    by_cases hl : 4 ≤ argv.length
    · rw [try_strptime.strptime_main_run h argv l0 hl, if_pos hl]
      split <;> rfl
    · rw [try_strptime.strptime_main_few h argv l0 (by omega), if_neg hl]
  refine ⟨?_, hF, ?_, ?_, hP, ?_, ?_, ?_⟩
  · intro i hi
    rw [hF] at hi
    by_cases hl : 12 ≤ argv.length
    · rw [if_pos hl] at hi
      simp only [List.mem_cons, List.mem_singleton, List.not_mem_nil, or_false] at hi
      omega
    · rw [if_neg hl] at hi
      cases hi
  · intro hl
    rw [try_strftime.strftime_main_few h argv l0 hl]
    exact ⟨rfl, rfl⟩
  · intro i hi
    rw [hP] at hi
    by_cases hl : 4 ≤ argv.length
    · rw [if_pos hl] at hi
      simp only [List.mem_cons, List.mem_singleton, List.not_mem_nil, or_false] at hi
      omega
    · rw [if_neg hl] at hi
      cases hi
  · intro hl
    rw [try_strptime.strptime_main_few h argv l0 hl]
    exact ⟨rfl, rfl⟩
  · by_cases hl : 12 ≤ argv.length
    · by_cases hz : try_strftime.rendering h argv l0 = [] ∨
          try_strftime.sizeof_s - 1 < (try_strftime.rendering h argv l0).length + 1
      · rw [try_strftime.strftime_main_failure h argv l0 hl hz]
      · have h0 : try_strftime.rendering h argv l0 ≠ [] := fun e => hz (Or.inl e)
        have h1 : (try_strftime.rendering h argv l0).length + 1 ≤ try_strftime.sizeof_s - 1 := by
          by_contra hc
          exact hz (Or.inr (by omega))
        rw [try_strftime.strftime_main_success h argv l0 hl h0 h1]
    · rw [try_strftime.strftime_main_few h argv l0 (by omega)]
  · by_cases hl : 4 ≤ argv.length
    · rw [try_strptime.strptime_main_run h argv l0 hl]
      split <;> rfl
    · rw [try_strptime.strptime_main_few h argv l0 (by omega)]

/-- C7: `try_strftime.c` hands the supplied field values to `strftime`
without clamping or altering them.  For every host and every twelve or more
arguments, the library calls of the run are the two `setlocale` calls, the
nine `atoi` calls and one `strftime` call, and the `struct tm` of that call
has `tm_year`, `tm_mon`, `tm_yday` equal to the `int` expressions year - 1900,
month - 1, yearday - 1 on the values returned by `atoi`, and the six other
members equal to the returned values themselves.  The three differences are
the mathematical ones whenever they are representable in `int`. -/
theorem C7_fields_passed_unaltered {σ : Type} (h : Host σ)
    (prog template year month day hour minute second weekday yearday isDst locale : CString)
    (rest : List CString) (l0 : σ) :
    ∃ tm : Tm,
      (try_strftime.main h
          (prog :: template :: year :: month :: day :: hour :: minute :: second :: weekday ::
            yearday :: isDst :: locale :: rest) l0).2.calls =
        [ Call.setlocale Category.LC_TIME locale, Call.setlocale Category.LC_ALL locale,
          Call.atoi second, Call.atoi minute, Call.atoi hour, Call.atoi day, Call.atoi month,
          Call.atoi year, Call.atoi weekday, Call.atoi yearday, Call.atoi isDst,
          Call.strftime 8192 8191 template tm ] ∧
      tm.tm_year = int_sub (h.atoi year) 1900 ∧
      tm.tm_mon = int_sub (h.atoi month) 1 ∧
      tm.tm_yday = int_sub (h.atoi yearday) 1 ∧
      tm.tm_mday = h.atoi day ∧ tm.tm_hour = h.atoi hour ∧ tm.tm_min = h.atoi minute ∧
      tm.tm_sec = h.atoi second ∧ tm.tm_wday = h.atoi weekday ∧ tm.tm_isdst = h.atoi isDst ∧
      (isInt (h.atoi year - 1900) → tm.tm_year = h.atoi year - 1900) ∧
      (isInt (h.atoi month - 1) → tm.tm_mon = h.atoi month - 1) ∧
      (isInt (h.atoi yearday - 1) → tm.tm_yday = h.atoi yearday - 1) := by
  refine ⟨try_strftime.buildTm (h.atoi second) (h.atoi minute) (h.atoi hour) (h.atoi day)
    (h.atoi month) (h.atoi year) (h.atoi weekday) (h.atoi yearday) (h.atoi isDst),
    ?_, rfl, rfl, rfl, rfl, rfl, rfl, rfl, rfl, rfl, ?_, ?_, ?_⟩
  · rw [try_strftime.strftime_main_run h _ l0 (by simp)]
    split <;> rfl
  · exact fun hr => wrapInt_of_isInt _ hr
  · exact fun hr => wrapInt_of_isInt _ hr
  · exact fun hr => wrapInt_of_isInt _ hr

/-- Witness of C7 on `try_strftime %Y-%m-%d 2024 3 7 13 5 9 4 67 0 en_US`:
`strftime` receives year 124, month 2, year-day 66 and the other members as
supplied; all three differences are representable. -/
theorem C7_fields_passed_unaltered_witness :
    isInt (SpecEngine.host.atoi (lit "2024") - 1900) ∧
    ∃ tm : Tm,
      (try_strftime.main SpecEngine.host Inputs.formatDate SpecEngine.english).2.calls.getLast? =
        some (Call.strftime 8192 8191 (lit "%Y-%m-%d") tm) ∧
      tm = { tm_sec := 9, tm_min := 5, tm_hour := 13, tm_mday := 7, tm_mon := 2, tm_year := 124,
             tm_wday := 4, tm_yday := 66, tm_isdst := 0 } ∧
      tm.tm_year = SpecEngine.host.atoi (lit "2024") - 1900 := by
  obtain ⟨tm, hcalls, hy, hm, hj, hd, hH, hM, hS, hw, hi, hyx, _, _⟩ :=
    C7_fields_passed_unaltered SpecEngine.host (lit "try_strftime") (lit "%Y-%m-%d")
      (lit "2024") (lit "3") (lit "7") (lit "13") (lit "5") (lit "9") (lit "4") (lit "67")
      (lit "0") (lit "en_US") [] SpecEngine.english
  refine ⟨by decide, tm, ?_, ?_, hyx (by decide)⟩
  · have hargv : Inputs.formatDate =
        [lit "try_strftime", lit "%Y-%m-%d", lit "2024", lit "3", lit "7", lit "13", lit "5",
          lit "9", lit "4", lit "67", lit "0", lit "en_US"] := rfl
    rw [hargv, hcalls]
    rfl
  · cases tm
    simp only at hy hm hj hd hH hM hS hw hi
    subst hy hm hj hd hH hM hS hw hi
    decide

/-- Witness of C10: with ten arguments `try_strftime` reads nothing and calls
nothing, and so does `try_strptime` with two; with eleven arguments
`try_strftime` reads the twelve indices listed, all below `argc`. -/
theorem C10_argv_indexing_safe_witness :
    Inputs.formatTooFew.length ≤ 11 ∧
    (try_strftime.main SpecEngine.host Inputs.formatTooFew SpecEngine.english).2.reads = [] ∧
    (try_strftime.main SpecEngine.host Inputs.formatTooFew SpecEngine.english).2.calls = [] ∧
    Inputs.parseTooFew.length < 4 ∧
    (try_strptime.main SpecEngine.host Inputs.parseTooFew SpecEngine.english).2.reads = [] ∧
    (try_strptime.main SpecEngine.host Inputs.parseTooFew SpecEngine.english).2.calls = [] ∧
    (try_strftime.main SpecEngine.host Inputs.formatDate SpecEngine.english).2.reads =
      [11, 11, 7, 6, 5, 4, 3, 2, 8, 9, 10, 1] ∧
    Inputs.formatDate.length = 12 :=
  have hfew := (C10_argv_indexing_safe SpecEngine.host Inputs.formatTooFew
    SpecEngine.english).2.2.1 (by decide)
  have hfewP := (C10_argv_indexing_safe SpecEngine.host Inputs.parseTooFew
    SpecEngine.english).2.2.2.2.2.1 (by decide)
  ⟨by decide, hfew.1, hfew.2, by decide, hfewP.1, hfewP.2, by decide, by decide⟩

/-- C3: `try_strptime.c` returns non-zero exactly when fewer than three
arguments follow the program name or `strptime` returns NULL.  In every other
case it returns 0, writes nothing to `stderr`, and prints the nine fields and
the remainder, which is the suffix of the input text `argv[1]` at the pointer
that `strptime` returned. -/
theorem C3_parse_failure_cases {σ : Type} (h : Host σ) (argv : List CString) (l0 : σ) :
    ((try_strptime.main h argv l0).1 ≠ 0 ↔
      (argv.tail.length < 3 ∨ try_strptime.parseResult h argv l0 = none)) ∧
    (∀ off tm1, 3 ≤ argv.tail.length →
      try_strptime.parseResult h argv l0 = some (off, tm1) →
        (try_strptime.main h argv l0).1 = 0 ∧
        (try_strptime.main h argv l0).2.stderr = [] ∧
        (try_strptime.main h argv l0).2.stdout =
          try_strptime.outputLine (try_strptime.outputFields tm1) ((argv.getD 1 []).drop off) ++
            ['\n'] ∧
        (argv.getD 1 []).drop off <:+ argv.getD 1 []) ∧
    (3 ≤ argv.tail.length →
      (try_strptime.main h argv l0).2.calls =
        [ Call.setlocale Category.LC_TIME (argv.getD 3 []),
          Call.setlocale Category.LC_ALL (argv.getD 3 []),
          Call.strptime (argv.getD 1 []) (argv.getD 2 []) try_strptime.initTm ]) := by
  have htail : argv.tail.length = argv.length - 1 := List.length_tail argv
  refine ⟨?_, ?_, ?_⟩
  · by_cases hl : 4 ≤ argv.length
    · rw [try_strptime.strptime_main_run h argv l0 hl]
      cases hres : try_strptime.parseResult h argv l0 with
      | none => simp
      | some r =>
        simp only [reduceCtorEq, or_false, ne_eq, not_true_eq_false, false_iff, not_lt]
        omega
    · rw [try_strptime.strptime_main_few h argv l0 (by omega)]
      simp only [ne_eq, Int.reduceNeg, Int.neg_eq_zero, one_ne_zero, not_false_eq_true,
        true_iff]
      exact Or.inl (by omega)
  · intro off tm1 hl hres
    rw [try_strptime.strptime_main_run h argv l0 (by omega), hres]
    exact ⟨rfl, rfl, rfl, List.drop_suffix _ _⟩
  · intro hl
    rw [try_strptime.strptime_main_run h argv l0 (by omega)]
    split <;> rfl

/-- Witness of C3 on `try_strptime 2024-03-07 %Y-%m-%d en_US`: three arguments
follow the program name, the host parses the whole text, and the program
prints year, month and day with an empty remainder. -/
theorem C3_parse_failure_cases_witness :
    3 ≤ Inputs.parseDate.tail.length ∧
    (try_strptime.main SpecEngine.host Inputs.parseDate SpecEngine.english).1 = 0 ∧
    (try_strptime.main SpecEngine.host Inputs.parseDate SpecEngine.english).2.stdout =
      lit "2024\t3\t7\t-1\t-1\t-1\t-1\t0\t-1\t\n" :=
  have hres : try_strptime.parseResult SpecEngine.host Inputs.parseDate SpecEngine.english =
      some (10, { try_strptime.initTm with tm_year := 124, tm_mon := 2, tm_mday := 7 }) := by
    decide
  have hrun := (C3_parse_failure_cases SpecEngine.host Inputs.parseDate SpecEngine.english).2.1
    10 _ (by decide) hres
  ⟨by decide, hrun.1, by rw [hrun.2.2.1]; decide⟩

/-- The numbers printed for members that `strptime` left at their initial
values: -1 for eight of the fields, 0 for the year-day. -/
theorem outputFields_initTm :
    try_strptime.outputFields try_strptime.initTm = [-1, -1, -1, -1, -1, -1, -1, 0, -1] := by
  decide

/-- C1 (evaluation at the failing input): a member `tm_yday` left at its
initial value is printed as 0, not -1.  On `try_strptime "" "" C` the host
modifies no member of `tm`, the run succeeds, and the program prints 0 in the
year-day column; the eight other columns hold -1. -/
theorem C1_unset_yearday_prints_zero :
    (∀ tm : Tm, tm.tm_yday = try_strptime.initTm.tm_yday →
      (try_strptime.outputFields tm).get? 7 = some 0) ∧
    try_strptime.parseResult SpecEngine.host Inputs.parseNothing SpecEngine.english =
      some (0, try_strptime.initTm) ∧
    (try_strptime.main SpecEngine.host Inputs.parseNothing SpecEngine.english).1 = 0 ∧
    (try_strptime.main SpecEngine.host Inputs.parseNothing SpecEngine.english).2.stdout =
      lit "-1\t-1\t-1\t-1\t-1\t-1\t-1\t0\t-1\t\n" := by
  refine ⟨?_, by decide, by decide, by decide⟩
  intro tm hy
  simp only [try_strptime.outputFields, List.get?, hy]
  decide


/-- C8: the output-length limit of `try_strftime.c`.  `strftime` is called
with the limit `sizeof(s) - 1 = 8191` on the array of 8192 bytes; the call
stores at most 8191 bytes, so no run leaves the array (nor `argv`); every
rendering printed on success is between 1 and 8190 bytes long; every
rendering of 8191 bytes or more takes the failure branch, with nothing
printed. -/
theorem C8_output_length_limit {σ : Type} (h : Host σ) (argv : List CString) (l0 : σ) :
    (12 ≤ argv.length →
      (try_strftime.main h argv l0).2.calls.getLast? =
        some (Call.strftime 8192 8191 (argv.getD 1 []) (try_strftime.tmOfArgv h argv))) ∧
    (try_strftime.strftimeResult h argv l0).2.length ≤ 8191 ∧
    (try_strftime.main h argv l0).2.fault = false ∧
    ((try_strftime.main h argv l0).1 = 0 →
      1 ≤ (try_strftime.rendering h argv l0).length ∧
      (try_strftime.rendering h argv l0).length ≤ 8190 ∧
      (try_strftime.main h argv l0).2.stdout = cstr (try_strftime.rendering h argv l0) ++ ['\n'] ∧
      (NUL ∉ try_strftime.rendering h argv l0 →
        (try_strftime.main h argv l0).2.stdout = try_strftime.rendering h argv l0 ++ ['\n'])) ∧
    (12 ≤ argv.length → 8191 ≤ (try_strftime.rendering h argv l0).length →
      (try_strftime.main h argv l0).1 ≠ 0 ∧ (try_strftime.main h argv l0).2.stdout = []) := by
  have hlim := try_strftime.limit_value
  have hcases : 12 ≤ argv.length →
      (try_strftime.rendering h argv l0 ≠ [] ∧
        (try_strftime.rendering h argv l0).length + 1 ≤ try_strftime.sizeof_s - 1) ∨
      (try_strftime.rendering h argv l0 = [] ∨
        try_strftime.sizeof_s - 1 < (try_strftime.rendering h argv l0).length + 1) := by
    intro _
    by_cases h0 : try_strftime.rendering h argv l0 = []
    · exact Or.inr (Or.inl h0)
    · by_cases h1 : (try_strftime.rendering h argv l0).length + 1 ≤ try_strftime.sizeof_s - 1
      · exact Or.inl ⟨h0, h1⟩
      · exact Or.inr (Or.inr (by omega))
  refine ⟨?_, ?_, ?_, ?_, ?_⟩
  · intro hl
    rw [try_strftime.strftime_main_run h argv l0 hl]
    split <;> rfl
  · have := try_strftime.strftimeResult_stored h argv l0
    omega
  · by_cases hl : 12 ≤ argv.length
    · rcases hcases hl with ⟨h0, h1⟩ | hz
      · rw [try_strftime.strftime_main_success h argv l0 hl h0 h1]
      · rw [try_strftime.strftime_main_failure h argv l0 hl hz]
    · rw [try_strftime.strftime_main_few h argv l0 (by omega)]
  · intro hst
    by_cases hl : 12 ≤ argv.length
    · rcases hcases hl with ⟨h0, h1⟩ | hz
      · rw [try_strftime.strftime_main_success h argv l0 hl h0 h1]
        have hpos : 0 < (try_strftime.rendering h argv l0).length := List.length_pos.mpr h0
        refine ⟨by omega, by omega, rfl, ?_⟩
        intro hn
        simp only [cstr_of_not_mem _ hn]
      · rw [try_strftime.strftime_main_failure h argv l0 hl hz] at hst
        exact absurd hst minus_one_ne_zero
    · rw [try_strftime.strftime_main_few h argv l0 (by omega)] at hst
      exact absurd hst minus_one_ne_zero
  · intro hl hbig
    rw [try_strftime.strftime_main_failure h argv l0 hl (Or.inr (by omega))]
    exact ⟨minus_one_ne_zero, rfl⟩

/-- Witness of C8: `try_strftime %Y-%m-%d 2024 3 7 ...` succeeds and prints a
rendering of ten bytes; a template of 8191 letters, rendered as it stands,
takes the failure branch with nothing printed. -/
theorem C8_output_length_limit_witness :
    (try_strftime.main SpecEngine.host Inputs.formatDate SpecEngine.english).1 = 0 ∧
    (try_strftime.rendering SpecEngine.host Inputs.formatDate SpecEngine.english).length = 10 ∧
    (try_strftime.main SpecEngine.host Inputs.formatDate SpecEngine.english).2.stdout =
      lit "2024-03-07\n" ∧
    (try_strftime.rendering SpecEngine.host (Inputs.formatLetters 8191)
      SpecEngine.english).length = 8191 ∧
    (try_strftime.main SpecEngine.host (Inputs.formatLetters 8191) SpecEngine.english).1 ≠ 0 ∧
    (try_strftime.main SpecEngine.host (Inputs.formatLetters 8191)
      SpecEngine.english).2.stdout = [] :=
  have hst : (try_strftime.main SpecEngine.host Inputs.formatDate SpecEngine.english).1 = 0 := by
    decide
  have hrun := (C8_output_length_limit SpecEngine.host Inputs.formatDate
    SpecEngine.english).2.2.2.1 hst
  have hlen : (try_strftime.rendering SpecEngine.host (Inputs.formatLetters 8191)
      SpecEngine.english).length = 8191 := by
    rw [SpecEngine.rendering_letters, List.length_replicate]
  have hbig := (C8_output_length_limit SpecEngine.host (Inputs.formatLetters 8191)
    SpecEngine.english).2.2.2.2 (Nat.le_refl 12) (by rw [hlen])
  ⟨hst, by decide, by rw [hrun.2.2.2 (by decide)]; decide, hlen, hbig.1, hbig.2⟩

/-- C2 (counterexample): a rendering of length zero fits within the limit, yet
`try_strftime.c` fails on it.  With eleven arguments and the empty template
the rendering is empty, the status is non-zero, nothing is printed and the
diagnostic of the `strftime` check goes to `stderr`. -/
theorem C2_empty_rendering_fails :
    11 ≤ Inputs.formatEmpty.tail.length ∧
    (try_strftime.rendering SpecEngine.host Inputs.formatEmpty SpecEngine.english).length = 0 ∧
    (try_strftime.rendering SpecEngine.host Inputs.formatEmpty SpecEngine.english).length + 1
      ≤ 8191 ∧
    (try_strftime.main SpecEngine.host Inputs.formatEmpty SpecEngine.english).1 ≠ 0 ∧
    (try_strftime.main SpecEngine.host Inputs.formatEmpty SpecEngine.english).2.stdout = [] ∧
    (try_strftime.main SpecEngine.host Inputs.formatEmpty SpecEngine.english).2.stderr =
      lit "ERROR: strftime returned 0.\n" := by
  decide

/-- C2 (amended): `try_strftime.c` returns non-zero exactly when fewer than
eleven arguments follow the program name, or the rendering is empty, or the
rendering with its terminating NUL exceeds the limit of 8191 bytes passed to
`strftime`.  For at least eleven arguments and a non-empty rendering within
the limit it returns 0, writes nothing to `stderr` and prints the rendering
followed by a newline. -/
theorem C2_format_failure_cases {σ : Type} (h : Host σ) (argv : List CString) (l0 : σ) :
    ((try_strftime.main h argv l0).1 ≠ 0 ↔
      (argv.tail.length < 11 ∨ try_strftime.rendering h argv l0 = [] ∨
        8191 < (try_strftime.rendering h argv l0).length + 1)) ∧
    (11 ≤ argv.tail.length → try_strftime.rendering h argv l0 ≠ [] →
      (try_strftime.rendering h argv l0).length + 1 ≤ 8191 →
      NUL ∉ try_strftime.rendering h argv l0 →
        (try_strftime.main h argv l0).1 = 0 ∧
        (try_strftime.main h argv l0).2.stderr = [] ∧
        (try_strftime.main h argv l0).2.stdout = try_strftime.rendering h argv l0 ++ ['\n']) := by
  have hlim := try_strftime.limit_value
  have htail : argv.tail.length = argv.length - 1 := List.length_tail argv
  refine ⟨?_, ?_⟩
  · by_cases hl : 12 ≤ argv.length
    · by_cases hz : try_strftime.rendering h argv l0 = [] ∨
          try_strftime.sizeof_s - 1 < (try_strftime.rendering h argv l0).length + 1
      · rw [try_strftime.strftime_main_failure h argv l0 hl hz]
        constructor
        · intro _
          rcases hz with h0 | h1
          · exact Or.inr (Or.inl h0)
          · exact Or.inr (Or.inr (by omega))
        · intro _
          exact minus_one_ne_zero
      · have h0 : try_strftime.rendering h argv l0 ≠ [] := fun e => hz (Or.inl e)
        have h1 : (try_strftime.rendering h argv l0).length + 1 ≤ try_strftime.sizeof_s - 1 := by
          by_contra hc
          exact hz (Or.inr (by omega))
        rw [try_strftime.strftime_main_success h argv l0 hl h0 h1]
        constructor
        · intro hne
          exact absurd rfl hne
        · rintro (ha | hb | hc)
          · omega
          · exact absurd hb h0
          · omega
    · rw [try_strftime.strftime_main_few h argv l0 (by omega)]
      constructor
      · intro _
        exact Or.inl (by omega)
      · intro _
        exact minus_one_ne_zero
  · intro hl h0 h1 hn
    rw [try_strftime.strftime_main_success h argv l0 (by omega) h0 (by omega)]
    exact ⟨rfl, rfl, by simp only [cstr_of_not_mem _ hn]⟩

/-- Witness of C2 (amended): `try_strftime %Y-%m-%d 2024 3 7 ...` has eleven
arguments and a rendering of ten bytes without NUL, returns 0 and prints the
rendering; a template of 8190 letters, the longest that fits, is printed too. -/
theorem C2_format_failure_cases_witness :
    11 ≤ Inputs.formatDate.tail.length ∧
    (try_strftime.main SpecEngine.host Inputs.formatDate SpecEngine.english).1 = 0 ∧
    (try_strftime.main SpecEngine.host Inputs.formatDate SpecEngine.english).2.stdout =
      lit "2024-03-07" ++ ['\n'] ∧
    (try_strftime.main SpecEngine.host (Inputs.formatLetters 8190) SpecEngine.english).1 = 0 ∧
    (try_strftime.main SpecEngine.host (Inputs.formatLetters 8190)
      SpecEngine.english).2.stdout = List.replicate 8190 'a' ++ ['\n'] :=
  have hrun := (C2_format_failure_cases SpecEngine.host Inputs.formatDate SpecEngine.english).2
    (by decide) (by decide) (by decide) (by decide)
  have hr : try_strftime.rendering SpecEngine.host (Inputs.formatLetters 8190)
      SpecEngine.english = List.replicate 8190 'a' := SpecEngine.rendering_letters 8190
  have hnul : NUL ∉ List.replicate 8190 'a' := by
    intro hm
    exact absurd (List.eq_of_mem_replicate hm) (by decide)
  have hlong := (C2_format_failure_cases SpecEngine.host (Inputs.formatLetters 8190)
    SpecEngine.english).2 (Nat.le_refl 11)
    (by rw [hr]; exact List.ne_nil_of_length_pos (by rw [List.length_replicate]; decide))
    (by rw [hr, List.length_replicate]) (by rw [hr]; exact hnul)
  ⟨by decide, hrun.1, by rw [hrun.2.2]; decide, hlong.1, by rw [hlong.2.2, hr]⟩


/-- C4 (counterexample): the text printed on success need not be a single
line.  With the template `a`, newline, `b` the run succeeds and `stdout`
receives two lines: a newline stands before the terminating one. -/
theorem C4_result_spans_two_lines :
    (try_strftime.main SpecEngine.host Inputs.formatTwoLines SpecEngine.english).1 = 0 ∧
    (try_strftime.main SpecEngine.host Inputs.formatTwoLines SpecEngine.english).2.stdout =
      lit "a\nb\n" ∧
    '\n' ∈ (try_strftime.main SpecEngine.host Inputs.formatTwoLines
      SpecEngine.english).2.stdout.dropLast := by
  decide

/-- C4 (amended): for both programs and every input exactly one of two
outcomes occurs.  Success: status 0, nothing on `stderr`, and `stdout`
receives exactly the result followed by one newline, where the result is the
rendering for `try_strftime.c` and the nine fields with the remainder for
`try_strptime.c`.  Failure: non-zero status, exactly one diagnostic line on
`stderr` and nothing on `stdout`.  The result is a single line whenever the
rendering, respectively the input text `argv[1]`, holds no newline. -/
theorem C4_outcomes_exclusive {σ : Type} (h : Host σ) (argv : List CString) (l0 : σ) :
    ((Succeeds (try_strftime.main h argv l0) (cstr (try_strftime.rendering h argv l0)) ∧
        ¬ Fails (try_strftime.main h argv l0)) ∨
      (Fails (try_strftime.main h argv l0) ∧
        ∀ result, ¬ Succeeds (try_strftime.main h argv l0) result)) ∧
    ((Succeeds (try_strptime.main h argv l0) (try_strptime.resultLine h argv l0) ∧
        ¬ Fails (try_strptime.main h argv l0)) ∨
      (Fails (try_strptime.main h argv l0) ∧
        ∀ result, ¬ Succeeds (try_strptime.main h argv l0) result)) ∧
    ('\n' ∉ try_strftime.rendering h argv l0 →
      '\n' ∉ cstr (try_strftime.rendering h argv l0)) ∧
    ('\n' ∉ argv.getD 1 [] → '\n' ∉ try_strptime.resultLine h argv l0) := by
  have hsucc : ∀ (p : Proc σ) (res : CString), p.stderr = [] → p.stdout = res ++ ['\n'] →
      (Succeeds ((0 : Int), p) res ∧ ¬ Fails ((0 : Int), p)) := by
    intro p res he ho
    exact ⟨⟨rfl, he, ho⟩, fun hf => hf.1 rfl⟩
  have hfail : ∀ (p : Proc σ) (d : CString), d ≠ [] → '\n' ∉ d → p.stdout = [] →
      p.stderr = d ++ ['\n'] →
      (Fails ((-1 : Int), p) ∧ ∀ result, ¬ Succeeds ((-1 : Int), p) result) := by
    intro p d hd hn ho he
    refine ⟨⟨minus_one_ne_zero, ho, ?_, ?_, ?_⟩, fun _ hs => minus_one_ne_zero hs.1⟩
    · show p.stderr.dropLast ≠ []
      rw [he, List.dropLast_concat]
      exact hd
    · show '\n' ∉ p.stderr.dropLast
      rw [he, List.dropLast_concat]
      exact hn
    · show p.stderr.getLast? = some '\n'
      rw [he, List.getLast?_concat]
  have hfew : tooFew = lit "ERROR: too few arguments." ++ ['\n'] := by decide
  have hzero : try_strftime.returnedZero = lit "ERROR: strftime returned 0." ++ ['\n'] := by
    decide
  have hparse : try_strptime.parseFailed =
      lit "ERROR: strptime failed to parse input." ++ ['\n'] := by decide
  refine ⟨?_, ?_, newline_not_mem_cstr _, ?_⟩
  · by_cases hl : 12 ≤ argv.length
    · by_cases hz : try_strftime.rendering h argv l0 = [] ∨
          try_strftime.sizeof_s - 1 < (try_strftime.rendering h argv l0).length + 1
      · rw [try_strftime.strftime_main_failure h argv l0 hl hz]
        exact Or.inr (hfail _ _ (by decide) (by decide) rfl hzero)
      · have h0 : try_strftime.rendering h argv l0 ≠ [] := fun e => hz (Or.inl e)
        have h1 : (try_strftime.rendering h argv l0).length + 1 ≤ try_strftime.sizeof_s - 1 := by
          by_contra hc
          exact hz (Or.inr (by omega))
        rw [try_strftime.strftime_main_success h argv l0 hl h0 h1]
        exact Or.inl (hsucc _ _ rfl rfl)
    · rw [try_strftime.strftime_main_few h argv l0 (by omega)]
      exact Or.inr (hfail _ _ (by decide) (by decide) rfl hfew)
  · by_cases hl : 4 ≤ argv.length
    · rw [try_strptime.strptime_main_run h argv l0 hl]
      unfold try_strptime.resultLine
      cases hres : try_strptime.parseResult h argv l0 with
      | none => exact Or.inr (hfail _ _ (by decide) (by decide) rfl hparse)
      | some r => exact Or.inl (hsucc _ _ rfl rfl)
    · rw [try_strptime.strptime_main_few h argv l0 (by omega)]
      exact Or.inr (hfail _ _ (by decide) (by decide) rfl hfew)
  · intro hn
    unfold try_strptime.resultLine
    split
    · apply try_strptime.newline_not_mem_outputLine
      intro hmem
      exact hn ((List.drop_sublist _ _).subset hmem)
    · exact List.not_mem_nil _

/-- Witness of C4 (amended): the rendering of `try_strftime %Y-%m-%d 2024 3 7
...` and the input text of `try_strptime 2024-03-07 %Y-%m-%d en_US` hold no
newline, and both results are single lines; the run with one argument short
fails with one diagnostic line and an empty `stdout`. -/
theorem C4_outcomes_exclusive_witness :
    '\n' ∉ try_strftime.rendering SpecEngine.host Inputs.formatDate SpecEngine.english ∧
    '\n' ∉ cstr (try_strftime.rendering SpecEngine.host Inputs.formatDate SpecEngine.english) ∧
    '\n' ∉ Inputs.parseDate.getD 1 [] ∧
    '\n' ∉ try_strptime.resultLine SpecEngine.host Inputs.parseDate SpecEngine.english ∧
    Succeeds (try_strptime.main SpecEngine.host Inputs.parseDate SpecEngine.english)
      (lit "2024\t3\t7\t-1\t-1\t-1\t-1\t0\t-1\t") ∧
    Fails (try_strftime.main SpecEngine.host Inputs.formatTooFew SpecEngine.english) :=
  ⟨by decide,
   (C4_outcomes_exclusive SpecEngine.host Inputs.formatDate SpecEngine.english).2.2.1
     (by decide),
   by decide,
   (C4_outcomes_exclusive SpecEngine.host Inputs.parseDate SpecEngine.english).2.2.2 (by decide),
   by decide, by decide⟩

/-- C5: the result of `setlocale` never makes a program fail.  Replacing the
pointers that the two `setlocale` calls return by anything else, with their
effect on the locale kept, changes nothing in a run of either program: not the
status, not the output, not the calls.  A non-zero status comes only from the
argument-count check or from the result of `strftime` respectively `strptime`.
With a locale identifier that `setlocale` rejects, leaving the locale as it
was, the programs go on to call `strftime` respectively `strptime` in the
locale of entry, and the status is decided by that call alone. -/
theorem C5_setlocale_result_ignored {σ : Type} (h : Host σ)
    (f : Category → CString → σ → Bool) (argv : List CString) (l0 : σ) :
    try_strftime.main (withSetlocaleResult h f) argv l0 = try_strftime.main h argv l0 ∧
    try_strptime.main (withSetlocaleResult h f) argv l0 = try_strptime.main h argv l0 ∧
    ((try_strftime.main h argv l0).1 ≠ 0 →
      argv.length ≤ 11 ∨ (try_strftime.strftimeResult h argv l0).1 = 0) ∧
    ((try_strptime.main h argv l0).1 ≠ 0 →
      argv.length < 4 ∨ try_strptime.parseResult h argv l0 = none) ∧
    (12 ≤ argv.length →
      h.setlocale Category.LC_TIME (argv.getD 11 []) l0 = (false, l0) →
      h.setlocale Category.LC_ALL (argv.getD 11 []) l0 = (false, l0) →
        ((try_strftime.main h argv l0).1 = 0 ↔
          (h.strftime l0 8191 (argv.getD 1 []) (try_strftime.tmOfArgv h argv)).1 ≠ 0)) ∧
    (4 ≤ argv.length →
      h.setlocale Category.LC_TIME (argv.getD 3 []) l0 = (false, l0) →
      h.setlocale Category.LC_ALL (argv.getD 3 []) l0 = (false, l0) →
        ((try_strptime.main h argv l0).1 = 0 ↔
          h.strptime l0 (argv.getD 1 []) (argv.getD 2 []) try_strptime.initTm ≠ none)) := by
  refine ⟨?_, ?_, ?_, ?_, ?_, ?_⟩
  · by_cases hl : 12 ≤ argv.length
    · rw [try_strftime.strftime_main_run _ argv l0 hl, try_strftime.strftime_main_run h argv l0 hl]
      rfl
    · rw [try_strftime.strftime_main_few _ argv l0 (by omega),
        try_strftime.strftime_main_few h argv l0 (by omega)]
  · by_cases hl : 4 ≤ argv.length
    · rw [try_strptime.strptime_main_run _ argv l0 hl, try_strptime.strptime_main_run h argv l0 hl]
      rfl
    · rw [try_strptime.strptime_main_few _ argv l0 (by omega),
        try_strptime.strptime_main_few h argv l0 (by omega)]
  · intro hne
    by_cases hl : 12 ≤ argv.length
    · right
      by_contra hz
      rw [try_strftime.strftime_main_run h argv l0 hl, if_neg hz] at hne
      exact hne rfl
    · exact Or.inl (by omega)
  · intro hne
    by_cases hl : 4 ≤ argv.length
    · right
      rw [try_strptime.strptime_main_run h argv l0 hl] at hne
      cases hres : try_strptime.parseResult h argv l0 with
      | none => rfl
      | some r =>
        rw [hres] at hne
        exact absurd rfl hne
    · exact Or.inl (by omega)
  · intro hl hrej1 hrej2
    have hloc : localeAfter h (argv.getD 11 []) l0 = l0 := by
      unfold localeAfter
      rw [hrej1, hrej2]
    have hres : try_strftime.strftimeResult h argv l0 =
        h.strftime l0 8191 (argv.getD 1 []) (try_strftime.tmOfArgv h argv) := by
      unfold try_strftime.strftimeResult
      rw [hloc, try_strftime.limit_value]
    rw [try_strftime.strftime_main_run h argv l0 hl, hres]
    split
    · rename_i hz
      simp only [hz, ne_eq, not_true_eq_false, iff_false]
      exact minus_one_ne_zero
    · rename_i hz
      simp only [ne_eq, hz, not_false_eq_true]
  · intro hl hrej1 hrej2
    have hloc : localeAfter h (argv.getD 3 []) l0 = l0 := by
      unfold localeAfter
      rw [hrej1, hrej2]
    have hres : try_strptime.parseResult h argv l0 =
        h.strptime l0 (argv.getD 1 []) (argv.getD 2 []) try_strptime.initTm := by
      unfold try_strptime.parseResult
      rw [hloc]
    rw [try_strptime.strptime_main_run h argv l0 hl, hres]
    cases h.strptime l0 (argv.getD 1 []) (argv.getD 2 []) try_strptime.initTm with
    | none =>
      simp only [ne_eq, not_true_eq_false, iff_false]
      exact minus_one_ne_zero
    | some r => simp

/-- Witness of C5 with the unknown locale identifier `zz_ZZ`: the host rejects
it, the run of `try_strftime.c` returns 0 because `strftime` in the locale of
entry returns a non-zero length, and a host that reports success for the same
calls gives the same run. -/
theorem C5_setlocale_result_ignored_witness :
    12 ≤ Inputs.formatUnknownLocale.length ∧
    SpecEngine.host.setlocale Category.LC_TIME (Inputs.formatUnknownLocale.getD 11 [])
      SpecEngine.english = (false, SpecEngine.english) ∧
    SpecEngine.host.setlocale Category.LC_ALL (Inputs.formatUnknownLocale.getD 11 [])
      SpecEngine.english = (false, SpecEngine.english) ∧
    ((try_strftime.main SpecEngine.host Inputs.formatUnknownLocale SpecEngine.english).1 = 0 ↔
      (SpecEngine.host.strftime SpecEngine.english 8191 (Inputs.formatUnknownLocale.getD 1 [])
        (try_strftime.tmOfArgv SpecEngine.host Inputs.formatUnknownLocale)).1 ≠ 0) ∧
    (try_strftime.main SpecEngine.host Inputs.formatUnknownLocale SpecEngine.english).1 = 0 ∧
    (try_strptime.main SpecEngine.host Inputs.parseUnknownLocale SpecEngine.english).1 = 0 ∧
    try_strftime.main (withSetlocaleResult SpecEngine.host (fun _ _ _ => true))
        Inputs.formatUnknownLocale SpecEngine.english =
      try_strftime.main SpecEngine.host Inputs.formatUnknownLocale SpecEngine.english :=
  ⟨by decide, by decide, by decide,
   (C5_setlocale_result_ignored SpecEngine.host (fun _ _ _ => true) Inputs.formatUnknownLocale
      SpecEngine.english).2.2.2.2.1 (by decide) (by decide) (by decide),
   by decide, by decide,
   (C5_setlocale_result_ignored SpecEngine.host (fun _ _ _ => true) Inputs.formatUnknownLocale
      SpecEngine.english).1⟩


/-- C6 (counterexample): the round trip fails where the text that follows a
rendered directive extends the greedy match, and where a value cannot be read
back at all.  Each line is a run of the format program and the run of the
parse program on the text it prints, with the same template and locale.

* Year 202 under `%Y1` prints `2021`; `%Y` reads the four digits, no `1` is
  left, and the parse program fails without printing any field (also when it
  is fed the text with its newline).
* Weekday 4 under `%arsday` prints `Thursday`, which `%a` reads in full; the
  parse program fails.
* Year -5 under `%Y` prints `-5`, which does not start with a digit; the parse
  program fails.
* Year 12345 under `%Y` prints `12345`; the parse program prints the year 1234
  and the remainder `5`.
* Month 13 under `%m` prints `13`, which is out of range; the parse program
  fails.
* In a locale without AM/PM markers, 13 hours under `%H%p` prints `13`; `%p`
  finds no marker and the parse program fails.
* In a locale where weekdays 0 and 6 are both abbreviated `S`, weekday 6 under
  `%a` prints `S`; the parse program prints the weekday 0.
* Where a run of digits shorter than the width is no match, year 202 under
  `%Y` prints `202` and the parse program fails.
* The empty template, and a template of 8191 letters, make the format program
  fail with nothing printed. -/
theorem C6_round_trip_fails :
    ((try_strftime.main SpecEngine.host Inputs.formatShortYear SpecEngine.english).1 = 0 ∧
    (try_strftime.main SpecEngine.host Inputs.formatShortYear SpecEngine.english).2.stdout =
      lit "2021" ++ ['\n'] ∧
    Inputs.parseShortYear =
      [lit "try_strptime", lit "2021", Inputs.formatShortYear.getD 1 [],
        Inputs.formatShortYear.getD 11 []] ∧
    (try_strptime.main SpecEngine.host Inputs.parseShortYear SpecEngine.english).1 ≠ 0 ∧
    (try_strptime.main SpecEngine.host Inputs.parseShortYear SpecEngine.english).2.stdout =
      [] ∧
    (try_strptime.main SpecEngine.host Inputs.parseShortYearLine SpecEngine.english).1 ≠ 0 ∧
    (try_strftime.main SpecEngine.host Inputs.formatWeekday SpecEngine.english).2.stdout =
      lit "Thursday" ++ ['\n'] ∧
    (try_strptime.main SpecEngine.host Inputs.parseWeekday SpecEngine.english).1 ≠ 0) ∧
    ((try_strftime.main SpecEngine.host Inputs.formatNegativeYear SpecEngine.english).2.stdout =
      lit "-5" ++ ['\n'] ∧
    (try_strptime.main SpecEngine.host Inputs.parseNegativeYear SpecEngine.english).1 ≠ 0 ∧
    (try_strftime.main SpecEngine.host Inputs.formatLongYear SpecEngine.english).2.stdout =
      lit "12345" ++ ['\n'] ∧
    (try_strptime.main SpecEngine.host Inputs.parseLongYear SpecEngine.english).2.stdout =
      lit "1234\t-1\t-1\t-1\t-1\t-1\t-1\t0\t-1\t5\n" ∧
    (try_strftime.main SpecEngine.host Inputs.formatMonth13 SpecEngine.english).2.stdout =
      lit "13" ++ ['\n'] ∧
    (try_strptime.main SpecEngine.host Inputs.parseMonth13 SpecEngine.english).1 ≠ 0) ∧
    ((try_strftime.main Inputs.narrowHost Inputs.formatMarker SpecEngine.english).2.stdout =
      lit "13" ++ ['\n'] ∧
    (try_strptime.main Inputs.narrowHost Inputs.parseMarker SpecEngine.english).1 ≠ 0 ∧
    (try_strftime.main Inputs.narrowHost Inputs.formatNarrow SpecEngine.english).2.stdout =
      lit "S" ++ ['\n'] ∧
    (try_strptime.main Inputs.narrowHost Inputs.parseNarrow SpecEngine.english).2.stdout =
      lit "-1\t-1\t-1\t-1\t-1\t-1\t0\t0\t-1\t\n" ∧
    (try_strftime.main Inputs.strictHost Inputs.formatYear202 SpecEngine.english).2.stdout =
      lit "202" ++ ['\n'] ∧
    (try_strptime.main Inputs.strictHost Inputs.parseYear202 SpecEngine.english).1 ≠ 0) ∧
    ((try_strftime.main SpecEngine.host Inputs.formatEmpty SpecEngine.english).1 ≠ 0 ∧
    (try_strftime.main SpecEngine.host Inputs.formatEmpty SpecEngine.english).2.stdout = [] ∧
    (try_strftime.main SpecEngine.host (Inputs.formatLetters 8191) SpecEngine.english).1 ≠ 0 ∧
    (try_strftime.main SpecEngine.host (Inputs.formatLetters 8191)
      SpecEngine.english).2.stdout = []) := by
  have hlen : (try_strftime.rendering SpecEngine.host (Inputs.formatLetters 8191)
      SpecEngine.english).length = 8191 := by
    rw [SpecEngine.rendering_letters, List.length_replicate]
  have hbig := try_strftime.strftime_main_failure SpecEngine.host (Inputs.formatLetters 8191)
    SpecEngine.english (Nat.le_refl 12)
    (Or.inr (by rw [hlen, try_strftime.limit_value]; exact Nat.lt_succ_self 8191))
  refine ⟨by decide, by decide, by decide, by decide, by decide, ?_, ?_⟩
  · rw [hbig]
    exact minus_one_ne_zero
  · rw [hbig]

/-- C6 (amended): the round trip through the two programs holds for every
template of covered directives whenever no rendered directive is extended by
the text that follows it.

The host library is the pair of engines of the spec, for every routine `atoi`,
both readings of short digit runs, every width of `%Y` and every locale
table.  Let the template consist of literal characters, `%%`, the numeric
directives `%Y %m %d %H %M %S %j` and the name directives `%a %A %b %B %p`, and
let `rereads` hold for the supplied values: every field that a numeric
directive names lies in its range of §3; the year under `%Y` is not negative
and either fills the width of `%Y` or is shorter, accepted, and not followed
by a digit; the hour under `%p` is set; no name of the table that matches
where a name rendered by `%a %A %b %B %p` begins is longer than it, and the
first one of its length stands at the index that was rendered.  Let the
rendering be non-empty, within the limit of the format program and free of
NUL.  The values returned by `atoi` are `int`, and the three subtractions of
the format program do not overflow, which C leaves undefined.

Then the format program returns 0 and prints the rendering, and the parse
program fed with that text, the same template and the same locale returns 0
and prints, with an empty remainder, the supplied value for every field that
the template names, and the number of an untouched member for every other
field. -/
theorem C6_round_trip_amended (a : CString → Int) (strict : Bool) (w : Nat)
    (known : List (CString × SpecEngine.LocaleTable)) (dflt l0 : SpecEngine.LocaleTable)
    (progF progP template year month day hour minute second weekday yearday isDst locale :
      CString)
    (hint : ∀ s : CString, isInt (a s))
    (hoff : isInt (a year - 1900) ∧ isInt (a month - 1) ∧ isInt (a yearday - 1))
    (hcov : SpecEngine.coveredTemplate template = true)
    (hre : SpecEngine.rereads strict w (SpecEngine.load known dflt locale).2
      (SpecEngine.supplied a year month day hour minute second weekday yearday isDst)
      template [] = true)
    (hne : try_strftime.rendering (SpecEngine.specHost a strict w known dflt)
      (Inputs.formatArgv progF template year month day hour minute second weekday yearday
        isDst locale) l0 ≠ [])
    (hfit : (try_strftime.rendering (SpecEngine.specHost a strict w known dflt)
      (Inputs.formatArgv progF template year month day hour minute second weekday yearday
        isDst locale) l0).length + 1 ≤ 8191)
    (hnul : NUL ∉ try_strftime.rendering (SpecEngine.specHost a strict w known dflt)
      (Inputs.formatArgv progF template year month day hour minute second weekday yearday
        isDst locale) l0) :
    (try_strftime.main (SpecEngine.specHost a strict w known dflt)
        (Inputs.formatArgv progF template year month day hour minute second weekday yearday
          isDst locale) l0).1 = 0 ∧
    (try_strftime.main (SpecEngine.specHost a strict w known dflt)
        (Inputs.formatArgv progF template year month day hour minute second weekday yearday
          isDst locale) l0).2.stdout =
      try_strftime.rendering (SpecEngine.specHost a strict w known dflt)
        (Inputs.formatArgv progF template year month day hour minute second weekday yearday
          isDst locale) l0 ++ ['\n'] ∧
    (try_strptime.main (SpecEngine.specHost a strict w known dflt)
        (Inputs.parseArgv progP
          (try_strftime.rendering (SpecEngine.specHost a strict w known dflt)
            (Inputs.formatArgv progF template year month day hour minute second weekday
              yearday isDst locale) l0)
          template locale) l0).1 = 0 ∧
    (try_strptime.main (SpecEngine.specHost a strict w known dflt)
        (Inputs.parseArgv progP
          (try_strftime.rendering (SpecEngine.specHost a strict w known dflt)
            (Inputs.formatArgv progF template year month day hour minute second weekday
              yearday isDst locale) l0)
          template locale) l0).2.stdout =
      try_strptime.outputLine
        (SpecEngine.roundTripFields template
          (SpecEngine.supplied a year month day hour minute second weekday yearday isDst))
        [] ++ ['\n'] := by
  have hlim := try_strftime.limit_value
  have hrec := SpecEngine.recordOfTm_tmOfArgv a strict w known dflt progF template year month
    day hour minute second weekday yearday isDst locale hoff.1 hoff.2.1 hoff.2.2
  have htext : try_strftime.rendering (SpecEngine.specHost a strict w known dflt)
      (Inputs.formatArgv progF template year month day hour minute second weekday yearday
        isDst locale) l0 =
      SpecEngine.format (SpecEngine.load known dflt locale).2
        (SpecEngine.supplied a year month day hour minute second weekday yearday isDst)
        template := by
    show SpecEngine.format (SpecEngine.load known dflt locale).2
      (SpecEngine.recordOfTm (try_strftime.tmOfArgv (SpecEngine.specHost a strict w known dflt)
        (Inputs.formatArgv progF template year month day hour minute second weekday yearday
          isDst locale))) template = _
    rw [hrec]
  have hF := try_strftime.strftime_main_success (SpecEngine.specHost a strict w known dflt)
    (Inputs.formatArgv progF template year month day hour minute second weekday yearday
      isDst locale) l0 (Nat.le_refl 12) hne (by omega)
  have hres : try_strptime.parseResult (SpecEngine.specHost a strict w known dflt)
      (Inputs.parseArgv progP
        (try_strftime.rendering (SpecEngine.specHost a strict w known dflt)
          (Inputs.formatArgv progF template year month day hour minute second weekday
            yearday isDst locale) l0)
        template locale) l0 =
      some ((try_strftime.rendering (SpecEngine.specHost a strict w known dflt)
          (Inputs.formatArgv progF template year month day hour minute second weekday
            yearday isDst locale) l0).length,
        SpecEngine.tmOfRecord (SpecEngine.update template
          (SpecEngine.supplied a year month day hour minute second weekday yearday isDst)
          (SpecEngine.recordOfTm try_strptime.initTm))) := by
    rw [htext]
    show (match SpecEngine.parse strict w (SpecEngine.load known dflt locale).2 template
        (SpecEngine.format (SpecEngine.load known dflt locale).2
          (SpecEngine.supplied a year month day hour minute second weekday yearday isDst)
          template)
        (SpecEngine.recordOfTm try_strptime.initTm) with
      | Except.error _ => none
      | Except.ok (r, rest) =>
        some ((SpecEngine.format (SpecEngine.load known dflt locale).2
          (SpecEngine.supplied a year month day hour minute second weekday yearday isDst)
          template).length - rest.length, SpecEngine.tmOfRecord r)) = _
    have hparse := SpecEngine.parse_format strict w (SpecEngine.load known dflt locale).2
      (SpecEngine.supplied a year month day hour minute second weekday yearday isDst)
      (SpecEngine.recordOfTm try_strptime.initTm) template [] hcov hre
    rw [List.append_nil] at hparse
    rw [hparse]
    simp only [List.length_nil, Nat.sub_zero]
  have hP := try_strptime.strptime_main_run (SpecEngine.specHost a strict w known dflt)
    (Inputs.parseArgv progP
      (try_strftime.rendering (SpecEngine.specHost a strict w known dflt)
        (Inputs.formatArgv progF template year month day hour minute second weekday
          yearday isDst locale) l0)
      template locale) l0 (Nat.le_refl 4)
  rw [hres] at hP
  rw [hF, hP]
  refine ⟨rfl, ?_, rfl, ?_⟩
  · simp only [cstr_of_not_mem _ hnul]
  · simp only [Inputs.parseArgv, List.getD_cons_succ, List.getD_cons_zero, List.drop_length]
    rw [SpecEngine.outputFields_update template _ hcov (hint year) (hint month)
      (hint yearday)]

/-- Witness of C6 (amended), with the host of the evaluations and the English
names.  The year 202 under `%Y-%m-%d` prints `202-03-07`: the year is shorter
than the width of `%Y` and a hyphen follows it, so the parse program prints
year, month and day as supplied.  The date 2024-03-07, weekday 4, under the
template `%A, %B %d` of §8 prints `Thursday, March 07`, and the parse program
prints month, day and weekday as supplied.  The same date at 13:05:09 under
`%a %b %j %H%p` prints `Thu Mar 07 13:05:09 PM 067 %`, and the
parse program prints every field but the year and the DST flag as supplied. -/
theorem C6_round_trip_amended_witness :
    (SpecEngine.rereads false 4 SpecEngine.english
        (SpecEngine.supplied SpecEngine.atoi (lit "202") (lit "3") (lit "7") (lit "13")
          (lit "5") (lit "9") (lit "4") (lit "67") (lit "0"))
        (lit "%Y-%m-%d") [] = true ∧
      (try_strftime.main SpecEngine.host Inputs.formatShortDate SpecEngine.english).2.stdout =
        lit "202-03-07\n" ∧
      (try_strptime.main SpecEngine.host Inputs.parseShortDate SpecEngine.english).1 = 0 ∧
      (try_strptime.main SpecEngine.host Inputs.parseShortDate SpecEngine.english).2.stdout =
        lit "202\t3\t7\t-1\t-1\t-1\t-1\t0\t-1\t\n") ∧
    (SpecEngine.rereads false 4 SpecEngine.english
        (SpecEngine.supplied SpecEngine.atoi (lit "2024") (lit "3") (lit "7") (lit "13")
          (lit "5") (lit "9") (lit "4") (lit "67") (lit "0"))
        (lit "%A, %B %d") [] = true ∧
      (try_strftime.main SpecEngine.host Inputs.formatNames SpecEngine.english).2.stdout =
        lit "Thursday, March 07\n" ∧
      (try_strptime.main SpecEngine.host Inputs.parseNames SpecEngine.english).1 = 0 ∧
      (try_strptime.main SpecEngine.host Inputs.parseNames SpecEngine.english).2.stdout =
        lit "-1\t3\t7\t-1\t-1\t-1\t4\t0\t-1\t\n") ∧
    (SpecEngine.rereads false 4 SpecEngine.english
        (SpecEngine.supplied SpecEngine.atoi (lit "2024") (lit "3") (lit "7") (lit "13")
          (lit "5") (lit "9") (lit "4") (lit "67") (lit "0"))
        (lit "%a %b %j %H%p") [] = true ∧
      (try_strftime.main SpecEngine.host Inputs.formatTime SpecEngine.english).2.stdout =
        lit "Thu Mar 067 13PM\n" ∧
      (try_strptime.main SpecEngine.host Inputs.parseTime SpecEngine.english).1 = 0 ∧
      (try_strptime.main SpecEngine.host Inputs.parseTime SpecEngine.english).2.stdout =
        lit "-1\t3\t-1\t13\t-1\t-1\t4\t67\t-1\t\n") :=
  have hA := C6_round_trip_amended SpecEngine.atoi false 4 Inputs.known SpecEngine.english
    SpecEngine.english (lit "try_strftime") (lit "try_strptime") (lit "%Y-%m-%d") (lit "202")
    (lit "3") (lit "7") (lit "13") (lit "5") (lit "9") (lit "4") (lit "67") (lit "0")
    (lit "en_US") SpecEngine.atoi_isInt (by decide) (by decide) (by decide) (by decide)
    (by decide) (by decide)
  have hB := C6_round_trip_amended SpecEngine.atoi false 4 Inputs.known SpecEngine.english
    SpecEngine.english (lit "try_strftime") (lit "try_strptime") (lit "%A, %B %d") (lit "2024")
    (lit "3") (lit "7") (lit "13") (lit "5") (lit "9") (lit "4") (lit "67") (lit "0")
    (lit "en_US") SpecEngine.atoi_isInt (by decide) (by decide) (by decide) (by decide)
    (by decide) (by decide)
  have hC := C6_round_trip_amended SpecEngine.atoi false 4 Inputs.known SpecEngine.english
    SpecEngine.english (lit "try_strftime") (lit "try_strptime")
    (lit "%a %b %j %H%p") (lit "2024") (lit "3") (lit "7") (lit "13") (lit "5")
    (lit "9") (lit "4") (lit "67") (lit "0") (lit "en_US") SpecEngine.atoi_isInt (by decide)
    (by decide) (by decide) (by decide) (by decide) (by decide)
  ⟨⟨by decide, hA.2.1, hA.2.2.1, hA.2.2.2⟩, ⟨by decide, hB.2.1, hB.2.2.1, hB.2.2.2⟩,
    ⟨by decide, hC.2.1, hC.2.2.1, hC.2.2.2⟩⟩

end Claims
